import Mathlib

/-!
Verification development for the single-file rhythm game `main.py`.

The gameplay-relevant fragment of the program is shallowly embedded below.
Python floats are modelled by exact rationals (`ℚ`), Python ints by `ℤ`/`ℕ`.
`int(x)` on non-negative values is modelled by `Int.floor`.  The wall clock
`now_s()` is sampled once per frame and passed as the parameter `tnow`; the
calls to `random.choice` / `random.random` are modelled by oracles passed to
the step functions (`pick` for gimmick selection, indexed by a running draw
counter, and a boolean roll for the per-frame dummy-note spawn).  Rendering
(blits, flips, fonts) has no effect on game state and is omitted; the
state-mutating statements inside `render_game` are kept.
-/

namespace Mokugyo

/-- Clamp from `main.py` line 40: `max(a, min(b, v))`. -/
def clamp (v a b : ℚ) : ℚ := max a (min b v)

/-- Screen width constant (`WIDTH = 1280`). -/
def WIDTH : ℤ := 1280

/-- Screen height constant (`HEIGHT = 720`). -/
def HEIGHT : ℤ := 720

/-- Tempo in beats per minute (`BPM = 158`). -/
def BPM : ℚ := 158

/-- Seconds per beat (`SPB = 60.0 / BPM`). -/
def SPB : ℚ := 60 / BPM

/-- Note travel time from spawn to hitline (`NOTE_TRAVEL_SEC = 1.6`). -/
def NOTE_TRAVEL_SEC : ℚ := 8/5

/-- Play-area geometry, lines 116-127 of `main.py`; `int(...)` is `Int.floor`. -/
def PREV_PLAY_WIDTH : ℤ := ⌊(WIDTH : ℚ) * (38/100)⌋

/-- Previous left blank: `(WIDTH//2) - PREV_PLAY_WIDTH`. -/
def PREV_LEFT_BLANK : ℤ := WIDTH / 2 - PREV_PLAY_WIDTH

/-- New left blank: `max(8, PREV_LEFT_BLANK // 3)`. -/
def NEW_LEFT_BLANK : ℤ := max 8 (PREV_LEFT_BLANK / 3)

/-- Right edge of the play area: `WIDTH // 2`. -/
def PLAY_AREA_RIGHT : ℤ := WIDTH / 2

/-- Play-area width: `PLAY_AREA_RIGHT - NEW_LEFT_BLANK`. -/
def PLAY_WIDTH : ℤ := PLAY_AREA_RIGHT - NEW_LEFT_BLANK

/-- Play-area top (`PLAY_AREA = pygame.Rect(NEW_LEFT_BLANK, 40, ...)`). -/
def PLAY_AREA_TOP : ℤ := 40

/-- Play-area height: `int(HEIGHT * 0.86)`. -/
def PLAY_AREA_HEIGHT : ℤ := ⌊(HEIGHT : ℚ) * (86/100)⌋

/-- Play-area bottom edge. -/
def PLAY_AREA_BOTTOM : ℤ := PLAY_AREA_TOP + PLAY_AREA_HEIGHT

/-- Lane x coordinate: `int(PLAY_AREA.left + PLAY_AREA.width * 0.25)`. -/
def LANE_X : ℤ := ⌊(NEW_LEFT_BLANK : ℚ) + (PLAY_WIDTH : ℚ) * (25/100)⌋

/-- Hitline y coordinate: `PLAY_AREA.bottom - 120`. -/
def HITLINE_Y : ℤ := PLAY_AREA_BOTTOM - 120

/-- Judgement window constants (`PERFECT_WINDOW = 0.05`). -/
def PERFECT_WINDOW : ℚ := 1/20

/-- Judgement window constant (`GOOD_WINDOW = 0.09`). -/
def GOOD_WINDOW : ℚ := 9/100

/-- Judgement window constant (`OK_WINDOW = 0.14`). -/
def OK_WINDOW : ℚ := 7/50

/-- Difficulty levels (keys of `MISS_LIMIT_MAP` / `DIFF_WINDOW`). -/
inductive Difficulty
  | easy
  | normal
  | hard
deriving DecidableEq, Repr

/-- Miss limits (`MISS_LIMIT_MAP = {"easy":12, "normal":6, "hard":1}`). -/
def MISS_LIMIT_MAP : Difficulty → ℕ
  | .easy => 12
  | .normal => 6
  | .hard => 1

/-- Difficulty window multipliers (`DIFF_WINDOW = {"easy":1.4, "normal":1.0, "hard":0.6}`). -/
def DIFF_WINDOW : Difficulty → ℚ
  | .easy => 7/5
  | .normal => 1
  | .hard => 3/5

/-- Specter reveal threshold (`HIDE_STEP = 4`). -/
def HIDE_STEP : ℕ := 4

/-- Prep countdown length (`START_PREP_DELAY = 1.6`). -/
def START_PREP_DELAY : ℚ := 8/5

/-- Combo threshold for gimmicks (`GIMMICK_COMBO_THRESHOLD = 20`). -/
def GIMMICK_COMBO_THRESHOLD : ℕ := 20

/-- New-gimmick notification duration (`NEW_GIMMICK_DISPLAY_TIME = 4.0`). -/
def NEW_GIMMICK_DISPLAY_TIME : ℚ := 4

/-- The note entity (class `Note`, lines 280-301 of `main.py`).
Only the state-relevant fields are kept; `draw` is render-only. -/
structure Note where
  target_time : ℚ
  spawn_time : ℚ
  x : ℚ
  start_y : ℚ
  hit_y : ℚ
  y : ℚ
  hit : Bool
  dead : Bool
  dummy : Bool
deriving DecidableEq, Repr

/-- Constructor `Note.__init__`: `spawn_time = target_time - NOTE_TRAVEL_SEC`,
`start_y = -60`, `hit_y = HITLINE_Y`, `y = start_y`, flags false. -/
def Note.init (target_time : ℚ) (x : ℚ) (dummy : Bool) : Note :=
  { target_time := target_time
    spawn_time := target_time - NOTE_TRAVEL_SEC
    x := x
    start_y := -60
    hit_y := (HITLINE_Y : ℚ)
    y := -60
    hit := false
    dead := false
    dummy := dummy }

/-- Linear interpolation used by the motion model. -/
def lerp (a b t : ℚ) : ℚ := a + (b - a) * t

/-- Method `Note.update(t_now)` (lines 292-301): recompute `y` by linear
interpolation of the clamped progress, and mark the note dead once its age
past `target_time` exceeds the grace period
`OK_WINDOW * DIFF_WINDOW[DIFFICULTY] + 0.01`.  The Python `if` only ever sets
`dead` to `True`, hence the disjunction. -/
def Note.update (n : Note) (tnow : ℚ) (diff : Difficulty) : Note :=
  let total := max (1/1000) NOTE_TRAVEL_SEC
  let p := clamp ((tnow - n.spawn_time) / total) 0 1
  let grace := OK_WINDOW * DIFF_WINDOW diff + 1/100
  { n with
    y := n.start_y + (n.hit_y - n.start_y) * p
    dead := n.dead || decide (tnow - n.target_time > grace) }

/-- The closed set of gimmick (effect) kinds: the keys of the `effects`
dictionary, lines 145-156 of `main.py`. -/
inductive Gimmick
  | shake_small
  | shake_big
  | rotate60
  | flash
  | slowmo
  | lane_wobble
  | ghost
  | spawn_rush
  | blackout
  | invert
deriving DecidableEq, Repr

/-- Scenes of the scene state machine (`SCENE_START` .. `SCENE_CLEAR`). -/
inductive Scene
  | start
  | settings
  | game
  | gameover
  | clear
deriving DecidableEq, Repr

/-- Input events relevant to the claims: a hit input (SPACE key or click on
the mokugyo while in `SCENE_GAME`), the Start button / RETURN key on the
title screen, the Restart button / RETURN key on the gameover screen, and
the Title button on the gameover screen.  Geometry of the button rectangles
is abstracted away: an event stands for a click that hit the button. -/
inductive Event
  | hit
  | startBtn
  | restartBtn
  | titleBtn
deriving DecidableEq, Repr

/-- The mutable module-level game state of `main.py` (lines 144-217 and
653-659), bundled into one record.  `spawned_target_times` is a Python
set modelled as a list with membership tests; `effects` is the duration
dictionary; `draws` counts the `random.choice` draws consumed so far (the
draw results are supplied by the oracle `pick`). -/
structure GState where
  scene : Scene
  notes : List Note
  combo : ℕ
  misses : ℕ
  start_time_s : Option ℚ
  prep_end_time : Option ℚ
  next_beat_time : Option ℚ
  spawn_index : ℕ
  spawned_target_times : List ℚ
  note_spawn_counter : ℕ
  effects : Gimmick → ℚ
  triggered_gimmicks : List Gimmick
  new_gimmick_timer : ℚ
  hannya_visible : Bool
  hannya_hidden_behind : Bool
  yakubi_mode : Bool
  difficulty : Difficulty
  offset_seconds : ℚ
  judge_text : String
  judge_time_end : ℚ
  draws : ℕ

/-- Function `record_gimmick(name)` (lines 383-387): append the kind to
`triggered_gimmicks` if unseen and arm the notification timer. -/
def record_gimmick (s : GState) (name : Gimmick) : GState :=
  if name ∈ s.triggered_gimmicks then s
  else { s with
    triggered_gimmicks := s.triggered_gimmicks ++ [name]
    new_gimmick_timer := NEW_GIMMICK_DISPLAY_TIME }

/-- Base effect durations from `trigger_random_gimmick_by_name`
(lines 398-417). -/
def gimmickBase : Gimmick → ℚ
  | .shake_small => 8/5
  | .shake_big => 14/5
  | .rotate60 => 18/5
  | .flash => 3/5
  | .slowmo => 5
  | .lane_wobble => 4
  | .ghost => 4
  | .spawn_rush => 6
  | .blackout => 3
  | .invert => 4

/-- Pointwise update of the `effects` dictionary. -/
def setEffect (e : Gimmick → ℚ) (k : Gimmick) (v : ℚ) : Gimmick → ℚ :=
  fun j => if j = k then v else e j

/-- Function `trigger_random_gimmick_by_name` (lines 389-417): draw one of
the ten kinds or `None` (the draw is `pick s.draws`), record the kind and
set its duration to `base * (1 + (misses / max(1, miss_limit)) * 1.5)`. -/
def trigger_random_gimmick (pick : ℕ → Option Gimmick) (s : GState) : GState :=
  let choice := pick s.draws
  let s1 := { s with draws := s.draws + 1 }
  match choice with
  | none => s1
  | some g =>
    let s2 := record_gimmick s1 g
    let intensity : ℚ := 1 + ((s2.misses : ℚ) / ((max 1 (MISS_LIMIT_MAP s2.difficulty) : ℕ) : ℚ)) * (3/2)
    { s2 with effects := setEffect s2.effects g (gimmickBase g * intensity) }

/-- Function `register_auto_miss()` (lines 433-442).  The two conditional
assignments (`hannya_visible = True` when it was false; `hannya_hidden_behind
= True` when the threshold condition holds) are written as an unconditional
assignment and a disjunction, which is equivalent. -/
def register_auto_miss (tnow : ℚ) (s : GState) : GState :=
  { s with
    combo := 0
    misses := s.misses + 1
    judge_text := "MISS"
    judge_time_end := tnow + 7/10
    hannya_visible := true
    hannya_hidden_behind := s.hannya_hidden_behind ||
      decide (HIDE_STEP ≤ s.misses + 1 ∧ s.misses + 1 < MISS_LIMIT_MAP s.difficulty) }

/-- The per-frame note update loop (`for n in list(notes): n.update(...); if
n.dead: notes.remove(n); register_auto_miss()`, lines 517-522 and 828-833):
every note is updated; dead ones are removed (by identity) and each removal
registers an automatic miss.  The loop iterates over a copy of the list, so
it is a left-to-right pass over the original notes. -/
def updateNotesGo (tnow : ℚ) : List Note → GState → GState
  | [], s => s
  | n :: rest, s =>
    let n' := n.update tnow s.difficulty
    let s' := if n'.dead then register_auto_miss tnow s
              else { s with notes := s.notes ++ [n'] }
    updateNotesGo tnow rest s'

/-- Entry point of the note update loop: start from the state with `notes`
emptied and re-append the surviving updated notes in order. -/
def updateNotesStep (tnow : ℚ) (s : GState) : GState :=
  updateNotesGo tnow s.notes { s with notes := [] }

/-- Function `compute_judgement(dt)` (lines 337-342). -/
def compute_judgement (diff : Difficulty) (dt : ℚ) : String :=
  let w := DIFF_WINDOW diff
  if dt ≤ PERFECT_WINDOW * w then "PERFECT"
  else if dt ≤ GOOD_WINDOW * w then "GOOD"
  else if dt ≤ OK_WINDOW * w then "OK"
  else "MISS"

/-- The candidate search of `hit_check` (lines 347-352): scan the notes in
order, skipping dead, hit and dummy notes, keeping the first note whose
`|target_time - tnow|` is strictly below the best so far (initially `1e9`).
The running index stands for Python's object identity. -/
def best_go (tnow : ℚ) : List Note → ℕ → Option ℕ → ℚ → Option ℕ × ℚ
  | [], _, bi, bd => (bi, bd)
  | n :: rest, i, bi, bd =>
    if n.dead || n.hit || n.dummy then best_go tnow rest (i+1) bi bd
    else if |n.target_time - tnow| < bd then
      best_go tnow rest (i+1) (some i) |n.target_time - tnow|
    else best_go tnow rest (i+1) bi bd

/-- Candidate search entry point: `best = None; best_dt = 1e9`. -/
def bestSearch (tnow : ℚ) (l : List Note) : Option ℕ × ℚ :=
  best_go tnow l 0 none (10^9)

/-- Function `hit_check()` (lines 344-380).  On a non-MISS judgement the
selected note is removed (`notes.remove(best)` removes exactly the selected
object, here by index) and the combo gimmick may fire; on MISS (or when no
candidate was found) the combo resets and the miss counter increments, with
the specter flags updated as in `register_auto_miss`. -/
def hit_check (pick : ℕ → Option Gimmick) (tnow : ℚ) (s : GState) : GState :=
  match bestSearch tnow s.notes with
  | (some i, best_dt) =>
    let judg := compute_judgement s.difficulty best_dt
    if judg ≠ "MISS" then
      let s1 := { s with notes := s.notes.eraseIdx i, combo := s.combo + 1 }
      let s2 := if s1.yakubi_mode = false ∧ s1.combo % GIMMICK_COMBO_THRESHOLD = 0 then
                  trigger_random_gimmick pick s1
                else s1
      { s2 with judge_text := judg, judge_time_end := tnow + 7/10 }
    else
      { s with
        combo := 0
        misses := s.misses + 1
        judge_text := judg
        judge_time_end := tnow + 7/10
        hannya_visible := true
        hannya_hidden_behind := s.hannya_hidden_behind ||
          decide (HIDE_STEP ≤ s.misses + 1 ∧ s.misses + 1 < MISS_LIMIT_MAP s.difficulty) }
  | (none, _) =>
    { s with
      combo := 0
      misses := s.misses + 1
      judge_text := "MISS"
      judge_time_end := tnow + 7/10
      hannya_visible := true
      hannya_hidden_behind := s.hannya_hidden_behind ||
        decide (HIDE_STEP ≤ s.misses + 1 ∧ s.misses + 1 < MISS_LIMIT_MAP s.difficulty) }

/-- Beat time of beat index `n`: `next_beat_time + spawn_index * SPB`
(line 322 of `main.py`). -/
def beat_time (anchor : ℚ) (n : ℕ) : ℚ := anchor + (n : ℚ) * SPB

/-- Body of one iteration of the `schedule_notes_up_to` loop
(lines 325-331): if the beat is not yet in `spawned_target_times`, append a
real note at the lane, mark the beat, bump the spawn counter and possibly
fire the yakubi gimmick. -/
def spawn_one (pick : ℕ → Option Gimmick) (anchor : ℚ) (idx : ℕ) (s : GState) : GState :=
  let beat := beat_time anchor idx
  if beat ∈ s.spawned_target_times then s
  else
    let s' := { s with
      notes := s.notes ++ [Note.init beat (LANE_X : ℚ) false]
      spawned_target_times := beat :: s.spawned_target_times
      note_spawn_counter := s.note_spawn_counter + 1 }
    if s'.yakubi_mode ∧ s'.note_spawn_counter % 10 = 0 then
      trigger_random_gimmick pick s'
    else s'

/-- The `while True` loop of `schedule_notes_up_to`, with the beat index
carried explicitly and written back into `spawn_index` on exit (the Python
code increments the global `spawn_index` once per iteration, which yields
the same final value; the loop body never reads it).  The loop is run with
the exact number of due beats as structural fuel; `scheduleGo_eq` below
proves that with that fuel it satisfies the defining equation of the
`while` loop. -/
def scheduleGo (pick : ℕ → Option Gimmick) (anchor tnow : ℚ) :
    ℕ → ℕ → GState → GState
  | 0, idx, s => { s with spawn_index := idx }
  | fuel+1, idx, s =>
    if beat_time anchor idx - NOTE_TRAVEL_SEC ≤ tnow then
      scheduleGo pick anchor tnow fuel (idx+1) (spawn_one pick anchor idx s)
    else { s with spawn_index := idx }

/-- Number of beat indices `≥ idx` whose spawn time has elapsed, i.e. the
iteration count of the scheduling loop started at `idx`. -/
def dueCount (anchor tnow : ℚ) (idx : ℕ) : ℕ :=
  (⌊(tnow + NOTE_TRAVEL_SEC - anchor) / SPB⌋ + 1 - idx).toNat

/-- Function `schedule_notes_up_to(t_now)` (lines 317-334): return unchanged
when `next_beat_time is None`, otherwise run the spawning loop. -/
def schedule_notes_up_to (pick : ℕ → Option Gimmick) (tnow : ℚ) (s : GState) : GState :=
  match s.next_beat_time with
  | none => s
  | some anchor => scheduleGo pick anchor tnow (dueCount anchor tnow s.spawn_index) s.spawn_index s

/-- Start-button handler on the title screen (lines 677-687; the RETURN-key
handler at lines 750-758 is identical).  `play_bgm_once` re-assigns the same
timing anchors from a fresh `now_s()` sample; with one time sample per frame
this is the same assignment, so it is folded in. -/
def start_session (tnow : ℚ) (s : GState) : GState :=
  { s with
    notes := []
    combo := 0
    misses := 0
    hannya_visible := false
    hannya_hidden_behind := false
    start_time_s := some tnow
    prep_end_time := some (tnow + START_PREP_DELAY)
    next_beat_time := some (tnow + START_PREP_DELAY + s.offset_seconds)
    spawn_index := 0
    spawned_target_times := []
    note_spawn_counter := 0
    judge_text := ""
    judge_time_end := 0
    scene := Scene.game }

/-- Restart-button handler on the gameover/clear screens (lines 715-723,
735-742 and 789-796): same resets as `start_session` except that
`judge_text` / `judge_time_end` are not cleared. -/
def restart_session (tnow : ℚ) (s : GState) : GState :=
  { s with
    notes := []
    combo := 0
    misses := 0
    hannya_visible := false
    hannya_hidden_behind := false
    start_time_s := some tnow
    prep_end_time := some (tnow + START_PREP_DELAY)
    next_beat_time := some (tnow + START_PREP_DELAY + s.offset_seconds)
    spawn_index := 0
    spawned_target_times := []
    note_spawn_counter := 0
    scene := Scene.game }

/-- Title-button handler on the gameover screen (lines 726-727): only the
scene changes. -/
def to_title (s : GState) : GState :=
  { s with scene := Scene.start }

/-- Dispatch of one input event, following the per-scene event handling of
the main loop (lines 666-798).  Events that hit no handled button in the
current scene leave the state unchanged. -/
def handle_event (pick : ℕ → Option Gimmick) (tnow : ℚ) (s : GState) : Event → GState
  | .hit => if s.scene = Scene.game then hit_check pick tnow s else s
  | .startBtn => if s.scene = Scene.start then start_session tnow s else s
  | .restartBtn => if s.scene = Scene.gameover ∨ s.scene = Scene.clear then restart_session tnow s else s
  | .titleBtn => if s.scene = Scene.gameover ∨ s.scene = Scene.clear then to_title s else s

/-- Per-frame decay of the effect timers and the new-gimmick timer
(lines 800-805): active timers decrease by `dt`, floored at zero. -/
def tickTimers (dt : ℚ) (s : GState) : GState :=
  { s with
    effects := fun k => if s.effects k > 0 then max 0 (s.effects k - dt) else s.effects k
    new_gimmick_timer :=
      if s.new_gimmick_timer > 0 then max 0 (s.new_gimmick_timer - dt) else s.new_gimmick_timer }

/-- Prep-countdown test of the main loop (line 818):
`prep_end_time and now_s() < prep_end_time` (`None` and `0.0` are falsy). -/
def prepActive (tnow : ℚ) (s : GState) : Bool :=
  match s.prep_end_time with
  | none => false
  | some p => decide (p ≠ 0) && decide (tnow < p)

/-- The dummy-note injection while `spawn_rush` is active (lines 525-526 and
836-837): with probability 0.03 per frame (the oracle `roll`) append a decoy
note targeted half a travel time ahead. -/
def dummy_spawn_step (roll : Bool) (tnow : ℚ) (s : GState) : GState :=
  if s.effects Gimmick.spawn_rush > 0 ∧ roll then
    { s with notes := s.notes ++ [Note.init (tnow + NOTE_TRAVEL_SEC * (1/2)) (LANE_X : ℚ) true] }
  else s

/-- The BGM-end clear transition (lines 839-844): when a track length is
known and the elapsed session time exceeds it (plus the prep delay), the
scene becomes CLEAR (`BGM_LENGTH and start_time_s` are truthy guards). -/
def bgm_clear_step (bgmLength : Option ℚ) (tnow : ℚ) (s : GState) : GState :=
  match bgmLength, s.start_time_s with
  | some len, some st =>
    if len ≠ 0 ∧ st ≠ 0 ∧ tnow - st > len + START_PREP_DELAY then
      { s with scene := Scene.clear }
    else s
  | _, _ => s

/-- The state-mutating part of `render_game` (lines 499-526): schedule due
notes, update notes and remove timed-out ones (each removal an automatic
miss), then possibly append a dummy note while `spawn_rush` is active.  The
slow-motion ramp and all drawing are render-only and omitted. -/
def render_game_state (pick : ℕ → Option Gimmick) (roll : Bool) (tnow : ℚ) (s : GState) : GState :=
  dummy_spawn_step roll tnow (updateNotesStep tnow (schedule_notes_up_to pick tnow s))

/-- The `SCENE_GAME` frame section before the miss-limit check
(lines 823-844): schedule, update notes (auto-misses), dummy-note spawn,
then the BGM-end clear transition. -/
def preCheck (pick : ℕ → Option Gimmick) (roll : Bool) (bgmLength : Option ℚ) (tnow : ℚ)
    (s : GState) : GState :=
  bgm_clear_step bgmLength tnow
    (dummy_spawn_step roll tnow (updateNotesStep tnow (schedule_notes_up_to pick tnow s)))

/-- The scene dispatch of the main loop (lines 807-864) for one frame.  In
`SCENE_GAME`: during the prep countdown only `render_game` runs (which
schedules, updates and spawns dummies — lines 818-821 jump straight to
`render_game()`); otherwise the pre-check section runs, then the miss-limit
check (lines 846-853) transitions to gameover, and otherwise `render_game`
runs again at the end of the frame (line 855).  All other scenes only
render. -/
def sceneStep (pick : ℕ → Option Gimmick) (roll1 roll2 : Bool) (bgmLength : Option ℚ)
    (tnow : ℚ) (s : GState) : GState :=
  match s.scene with
  | Scene.game =>
    if prepActive tnow s then render_game_state pick roll1 tnow s
    else
      let t := preCheck pick roll1 bgmLength tnow s
      if MISS_LIMIT_MAP t.difficulty ≤ t.misses then
        { t with hannya_hidden_behind := true, scene := Scene.gameover }
      else render_game_state pick roll2 tnow t
  | _ => s

/-- One iteration of the main `while running` loop (lines 661-864) in
`SCENE_GAME`-relevant form: drain the event queue, tick the timers, then run
the scene dispatch.  `tnow` is the frame's time sample and `dt` the frame
delta. -/
def frame (pick : ℕ → Option Gimmick) (roll1 roll2 : Bool) (bgmLength : Option ℚ)
    (events : List Event) (tnow dt : ℚ) (s : GState) : GState :=
  sceneStep pick roll1 roll2 bgmLength tnow
    (tickTimers dt (events.foldl (handle_event pick tnow) s))

/-! Basic facts about the geometry constants and the motion model. -/

theorem HITLINE_Y_eq : HITLINE_Y = 539 := by
  unfold HITLINE_Y PLAY_AREA_BOTTOM PLAY_AREA_TOP PLAY_AREA_HEIGHT HEIGHT
  norm_num

theorem NEW_LEFT_BLANK_eq : NEW_LEFT_BLANK = 51 := by
  unfold NEW_LEFT_BLANK PREV_LEFT_BLANK PREV_PLAY_WIDTH WIDTH
  norm_num

theorem LANE_X_eq : LANE_X = 198 := by
  unfold LANE_X PLAY_WIDTH PLAY_AREA_RIGHT WIDTH
  rw [NEW_LEFT_BLANK_eq]
  norm_num

theorem total_eq : max (1/1000 : ℚ) NOTE_TRAVEL_SEC = NOTE_TRAVEL_SEC := by
  unfold NOTE_TRAVEL_SEC; norm_num

theorem Note.update_y (n : Note) (tnow : ℚ) (diff : Difficulty) :
    (n.update tnow diff).y =
      lerp n.start_y n.hit_y (clamp ((tnow - n.spawn_time) / NOTE_TRAVEL_SEC) 0 1) := by
  simp only [Note.update, lerp, total_eq]

theorem Note.update_dead (n : Note) (tnow : ℚ) (diff : Difficulty) :
    (n.update tnow diff).dead =
      (n.dead || decide (tnow - n.target_time > OK_WINDOW * DIFF_WINDOW diff + 1/100)) := rfl

theorem Note.update_target (n : Note) (tnow : ℚ) (diff : Difficulty) :
    (n.update tnow diff).target_time = n.target_time := rfl

theorem Note.update_dummy (n : Note) (tnow : ℚ) (diff : Difficulty) :
    (n.update tnow diff).dummy = n.dummy := rfl

theorem clamp_mono {v w : ℚ} (a b : ℚ) (h : v ≤ w) : clamp v a b ≤ clamp w a b := by
  unfold clamp
  exact max_le_max le_rfl (min_le_min le_rfl h)

theorem clamp_le (v a b : ℚ) (hab : a ≤ b) : clamp v a b ≤ b := by
  unfold clamp
  exact max_le hab (min_le_left _ _)

theorem le_clamp (v a b : ℚ) : a ≤ clamp v a b := le_max_left _ _

theorem register_auto_miss_notes (tnow : ℚ) (s : GState) :
    (register_auto_miss tnow s).notes = s.notes := rfl

theorem register_auto_miss_difficulty (tnow : ℚ) (s : GState) :
    (register_auto_miss tnow s).difficulty = s.difficulty := rfl

theorem updateNotesGo_difficulty (tnow : ℚ) :
    ∀ (l : List Note) (s : GState), (updateNotesGo tnow l s).difficulty = s.difficulty := by
  intro l
  induction l with
  | nil => intro s; rfl
  | cons n rest ih =>
    intro s
    simp only [updateNotesGo]
    split
    · rw [ih, register_auto_miss_difficulty]
    · rw [ih]

theorem updateNotesGo_notes_congr (tnow : ℚ) :
    ∀ (l : List Note) (s1 s2 : GState), s1.notes = s2.notes → s1.difficulty = s2.difficulty →
      (updateNotesGo tnow l s1).notes = (updateNotesGo tnow l s2).notes := by
  intro l
  induction l with
  | nil => intro s1 s2 hn _; exact hn
  | cons n rest ih =>
    intro s1 s2 hn hd
    simp only [updateNotesGo, hd]
    split
    · exact ih _ _ (by simp [register_auto_miss_notes, hn]) (by simp [register_auto_miss_difficulty, hd])
    · exact ih _ _ (by simp [hn]) (by simp [hd])

theorem NOTE_TRAVEL_SEC_pos : (0 : ℚ) < NOTE_TRAVEL_SEC := by norm_num [NOTE_TRAVEL_SEC]

theorem init_gap_nonneg (t x : ℚ) (d : Bool) :
    0 ≤ (Note.init t x d).hit_y - (Note.init t x d).start_y := by
  simp only [Note.init, HITLINE_Y_eq]
  norm_num

/-- Claim C4: for every note and every time, the note's position equals
`lerp(spawn_position, hit_position, clamp((now - spawn_time)/travel_duration, 0, 1))`;
position at `spawn_time` is the spawn position and at `target_time` the hit
position; position is monotonically non-decreasing in time; and the list of
updated note positions produced by the per-frame note update is independent
of the active effect durations. -/
theorem c4_motion_model :
    (∀ (n : Note) (tnow : ℚ) (diff : Difficulty),
      (n.update tnow diff).y =
        lerp n.start_y n.hit_y (clamp ((tnow - n.spawn_time) / NOTE_TRAVEL_SEC) 0 1)) ∧
    (∀ (t x : ℚ) (d : Bool) (diff : Difficulty),
      ((Note.init t x d).update (t - NOTE_TRAVEL_SEC) diff).y = (Note.init t x d).start_y ∧
      ((Note.init t x d).update t diff).y = (Note.init t x d).hit_y) ∧
    (∀ (t x : ℚ) (d : Bool) (diff : Difficulty) (t1 t2 : ℚ), t1 ≤ t2 →
      ((Note.init t x d).update t1 diff).y ≤ ((Note.init t x d).update t2 diff).y) ∧
    (∀ (s : GState) (e : Gimmick → ℚ) (tnow : ℚ),
      (updateNotesStep tnow { s with effects := e }).notes = (updateNotesStep tnow s).notes) := by
  refine ⟨Note.update_y, ?_, ?_, ?_⟩
  · intro t x d diff
    constructor
    · rw [Note.update_y]
      show lerp _ _ (clamp ((t - NOTE_TRAVEL_SEC - (t - NOTE_TRAVEL_SEC)) / NOTE_TRAVEL_SEC) 0 1) = _
      norm_num [clamp, lerp]
    · rw [Note.update_y]
      show lerp _ _ (clamp ((t - (t - NOTE_TRAVEL_SEC)) / NOTE_TRAVEL_SEC) 0 1) = _
      have h1 : (t - (t - NOTE_TRAVEL_SEC)) / NOTE_TRAVEL_SEC = 1 := by
        rw [sub_sub_cancel, div_self (ne_of_gt NOTE_TRAVEL_SEC_pos)]
      rw [h1]
      norm_num [clamp, lerp]
  · intro t x d diff t1 t2 h
    rw [Note.update_y, Note.update_y]
    unfold lerp
    apply add_le_add_left
    apply mul_le_mul_of_nonneg_left _ (init_gap_nonneg t x d)
    apply clamp_mono
    exact div_le_div_of_nonneg_right (by linarith) NOTE_TRAVEL_SEC_pos.le
  · intro s e tnow
    unfold updateNotesStep
    exact updateNotesGo_notes_congr tnow _ _ _ rfl rfl

/-- Witness for C4: the monotonicity conjunct applied at a concrete note and
concrete times. -/
theorem c4_motion_model_witness :
    (0 : ℚ) ≤ 1 ∧
      ((Note.init 2 0 false).update 0 Difficulty.normal).y ≤
        ((Note.init 2 0 false).update 1 Difficulty.normal).y :=
  ⟨by norm_num, c4_motion_model.2.2.1 2 0 false Difficulty.normal 0 1 (by norm_num)⟩

/-! Characterization of the per-frame note update loop. -/

theorem register_auto_miss_misses (tnow : ℚ) (s : GState) :
    (register_auto_miss tnow s).misses = s.misses + 1 := rfl

theorem register_auto_miss_combo (tnow : ℚ) (s : GState) :
    (register_auto_miss tnow s).combo = 0 := rfl

theorem register_auto_miss_triggered (tnow : ℚ) (s : GState) :
    (register_auto_miss tnow s).triggered_gimmicks = s.triggered_gimmicks := rfl

theorem updateNotesGo_notes (tnow : ℚ) :
    ∀ (l : List Note) (s : GState),
      (updateNotesGo tnow l s).notes =
        s.notes ++ (l.map (fun n => n.update tnow s.difficulty)).filter (fun n => !n.dead) := by
  intro l
  induction l with
  | nil => intro s; simp [updateNotesGo]
  | cons n rest ih =>
    intro s
    simp only [updateNotesGo, List.map_cons, List.filter_cons]
    by_cases hd : (n.update tnow s.difficulty).dead
    · rw [if_pos hd, ih]
      simp [hd, register_auto_miss_notes, register_auto_miss_difficulty]
    · rw [if_neg hd, ih]
      simp only [hd]
      simp [List.append_assoc]

theorem updateNotesGo_misses (tnow : ℚ) :
    ∀ (l : List Note) (s : GState),
      (updateNotesGo tnow l s).misses =
        s.misses + ((l.map (fun n => n.update tnow s.difficulty)).filter (fun n => n.dead)).length := by
  intro l
  induction l with
  | nil => intro s; simp [updateNotesGo]
  | cons n rest ih =>
    intro s
    simp only [updateNotesGo, List.map_cons, List.filter_cons]
    by_cases hd : (n.update tnow s.difficulty).dead
    · rw [if_pos hd, ih]
      simp [hd, register_auto_miss_misses, register_auto_miss_difficulty]
      omega
    · rw [if_neg hd, ih]
      simp [hd]

theorem updateNotesGo_combo (tnow : ℚ) :
    ∀ (l : List Note) (s : GState),
      (updateNotesGo tnow l s).combo =
        if (l.map (fun n => n.update tnow s.difficulty)).any (fun n => n.dead) then 0
        else s.combo := by
  intro l
  induction l with
  | nil => intro s; simp [updateNotesGo]
  | cons n rest ih =>
    intro s
    simp only [updateNotesGo, List.map_cons, List.any_cons]
    by_cases hd : (n.update tnow s.difficulty).dead
    · rw [if_pos hd, ih]
      simp [hd, register_auto_miss_combo, register_auto_miss_difficulty]
    · rw [if_neg hd, ih]
      simp [hd]

theorem updateNotesGo_triggered (tnow : ℚ) :
    ∀ (l : List Note) (s : GState),
      (updateNotesGo tnow l s).triggered_gimmicks = s.triggered_gimmicks := by
  intro l
  induction l with
  | nil => intro s; rfl
  | cons n rest ih =>
    intro s
    simp only [updateNotesGo]
    split
    · rw [ih, register_auto_miss_triggered]
    · rw [ih]

/-- Oracle that always draws the `None` gimmick outcome. -/
def pickNone : ℕ → Option Gimmick := fun _ => none

/-- A quiescent base state matching the module-level initial values of
`main.py` (lines 166-217 and 653-659). -/
def baseState : GState :=
  { scene := Scene.start
    notes := []
    combo := 0
    misses := 0
    start_time_s := none
    prep_end_time := none
    next_beat_time := none
    spawn_index := 0
    spawned_target_times := []
    note_spawn_counter := 0
    effects := fun _ => 0
    triggered_gimmicks := []
    new_gimmick_timer := 0
    hannya_visible := false
    hannya_hidden_behind := false
    yakubi_mode := false
    difficulty := Difficulty.normal
    offset_seconds := 0
    judge_text := ""
    judge_time_end := 0
    draws := 0 }

/-- Mid-play state holding a single decoy (dummy) note with `target_time = 1`
whose judgement window has long passed at `tnow = 2`. -/
def c1State : GState :=
  { baseState with
    scene := Scene.game
    notes := [Note.init 1 (LANE_X : ℚ) true]
    combo := 3 }

theorem c1_note_dead :
    ((Note.init 1 (LANE_X : ℚ) true).update 2 Difficulty.normal).dead = true := by
  rw [Note.update_dead]
  norm_num [Note.init, OK_WINDOW, DIFF_WINDOW]

/-- Claim C1 counterexample: expiry of a decoy note is not silent.  Running
the expired-note removal at `tnow = 2` on a state whose only note is a decoy
with `target_time = 1` (age `1 >` grace `0.15`) removes the note but also
resets the combo from 3 to 0 and increments the miss counter — the expiry
path (`register_auto_miss`) never tests `dummy`. -/
theorem c1_counterexample :
    c1State.notes = [Note.init 1 (LANE_X : ℚ) true] ∧
    (Note.init 1 (LANE_X : ℚ) true).dummy = true ∧
    (updateNotesStep 2 c1State).misses = 1 ∧
    (updateNotesStep 2 c1State).combo = 0 ∧
    (updateNotesStep 2 c1State).notes = [] := by
  refine ⟨rfl, rfl, ?_, ?_, ?_⟩
  · unfold updateNotesStep
    rw [updateNotesGo_misses]
    simp [c1State, baseState, List.filter, c1_note_dead]
  · unfold updateNotesStep
    rw [updateNotesGo_combo]
    simp [c1State, baseState, c1_note_dead]
  · unfold updateNotesStep
    rw [updateNotesGo_notes]
    simp [c1State, baseState, List.filter, c1_note_dead]

/-- Claim C1 (amended): every note whose age exceeds the grace period
(`now - target_time > OK_WINDOW * difficulty_window_scale + 0.01`) is removed
by the per-frame update, and every such expiry is an automatic miss — the
miss counter grows by the number of expired notes and the combo resets to 0
whenever at least one note expired — regardless of whether the expired note
is a decoy: decoy expiry is not silent. -/
theorem c1_expiry_auto_miss (tnow : ℚ) (s : GState) :
    (updateNotesStep tnow s).notes =
      (s.notes.map (fun n => n.update tnow s.difficulty)).filter (fun n => !n.dead) ∧
    (updateNotesStep tnow s).misses =
      s.misses + ((s.notes.map (fun n => n.update tnow s.difficulty)).filter (fun n => n.dead)).length ∧
    ((∃ n ∈ s.notes, (n.update tnow s.difficulty).dead = true) →
      (updateNotesStep tnow s).combo = 0) ∧
    (∀ n ∈ s.notes, n.dead = false →
      ((n.update tnow s.difficulty).dead = true ↔
        OK_WINDOW * DIFF_WINDOW s.difficulty + 1/100 < tnow - n.target_time)) := by
  refine ⟨?_, ?_, ?_, ?_⟩
  · unfold updateNotesStep
    rw [updateNotesGo_notes]
    rfl
  · unfold updateNotesStep
    rw [updateNotesGo_misses]
  · intro hex
    unfold updateNotesStep
    rw [updateNotesGo_combo]
    rw [if_pos]
    simp only [List.any_map, List.any_eq_true]
    obtain ⟨n, hn, hd⟩ := hex
    exact ⟨n, hn, hd⟩
  · intro n _ hnd
    rw [Note.update_dead, hnd]
    simp [gt_iff_lt]

/-- Witness for C1: the combo-reset conjunct applied to the concrete decoy
state `c1State` at `tnow = 2`. -/
theorem c1_expiry_auto_miss_witness :
    (∃ n ∈ c1State.notes, (n.update 2 c1State.difficulty).dead = true) ∧
      (updateNotesStep 2 c1State).combo = 0 :=
  ⟨⟨Note.init 1 (LANE_X : ℚ) true, by simp [c1State, baseState], c1_note_dead⟩,
    (c1_expiry_auto_miss 2 c1State).2.2.1
      ⟨Note.init 1 (LANE_X : ℚ) true, by simp [c1State, baseState], c1_note_dead⟩⟩

/-! Properties of the nearest-note candidate search and of `hit_check`. -/

/-- A note is a judgement candidate when it is neither dead, hit nor dummy
(the skip condition of the `hit_check` loop, line 349). -/
def isCandidate (n : Note) : Bool := !(n.dead || n.hit || n.dummy)

theorem isCandidate_false (n : Note) (h : isCandidate n = false) :
    (n.dead || n.hit || n.dummy) = true := by
  unfold isCandidate at h
  cases hB : (n.dead || n.hit || n.dummy)
  · rw [hB] at h; cases h
  · rfl

theorem isCandidate_true (n : Note) (h : isCandidate n = true) :
    (n.dead || n.hit || n.dummy) = false := by
  unfold isCandidate at h
  cases hB : (n.dead || n.hit || n.dummy)
  · rfl
  · rw [hB] at h; cases h

theorem isCandidate_of_skip_false (n : Note) (h : (n.dead || n.hit || n.dummy) = false) :
    isCandidate n = true := by
  unfold isCandidate
  rw [h]
  rfl

theorem best_go_cons_skip (tnow : ℚ) (n : Note) (rest : List Note) (i : ℕ)
    (bi : Option ℕ) (bd : ℚ) (h : (n.dead || n.hit || n.dummy) = true) :
    best_go tnow (n :: rest) i bi bd = best_go tnow rest (i+1) bi bd := by
  simp [best_go, h]

theorem best_go_cons_upd (tnow : ℚ) (n : Note) (rest : List Note) (i : ℕ)
    (bi : Option ℕ) (bd : ℚ) (h : (n.dead || n.hit || n.dummy) = false)
    (h2 : |n.target_time - tnow| < bd) :
    best_go tnow (n :: rest) i bi bd =
      best_go tnow rest (i+1) (some i) |n.target_time - tnow| := by
  simp [best_go, h, h2]

theorem best_go_cons_keep (tnow : ℚ) (n : Note) (rest : List Note) (i : ℕ)
    (bi : Option ℕ) (bd : ℚ) (h : (n.dead || n.hit || n.dummy) = false)
    (h2 : ¬ |n.target_time - tnow| < bd) :
    best_go tnow (n :: rest) i bi bd = best_go tnow rest (i+1) bi bd := by
  simp [best_go, h, h2]

theorem best_go_none (tnow : ℚ) :
    ∀ (l : List Note) (i : ℕ) (bi : Option ℕ) (bd : ℚ),
      (∀ n ∈ l, isCandidate n = false) → best_go tnow l i bi bd = (bi, bd) := by
  intro l
  induction l with
  | nil => intro i bi bd _; rfl
  | cons n rest ih =>
    intro i bi bd h
    rw [best_go_cons_skip tnow n rest i bi bd (isCandidate_false n (h n (by simp)))]
    exact ih _ _ _ (fun m hm => h m (by simp [hm]))

theorem best_go_bd_le (tnow : ℚ) :
    ∀ (l : List Note) (i : ℕ) (bi : Option ℕ) (bd : ℚ),
      (best_go tnow l i bi bd).2 ≤ bd := by
  intro l
  induction l with
  | nil => intro i bi bd; exact le_refl _
  | cons n rest ih =>
    intro i bi bd
    cases hskip : (n.dead || n.hit || n.dummy) with
    | true =>
      rw [best_go_cons_skip tnow n rest i bi bd hskip]
      exact ih _ _ _
    | false =>
      by_cases hlt : |n.target_time - tnow| < bd
      · rw [best_go_cons_upd tnow n rest i bi bd hskip hlt]
        exact le_trans (ih _ _ _) hlt.le
      · rw [best_go_cons_keep tnow n rest i bi bd hskip hlt]
        exact ih _ _ _

theorem best_go_min (tnow : ℚ) :
    ∀ (l : List Note) (i : ℕ) (bi : Option ℕ) (bd : ℚ),
      ∀ n ∈ l, isCandidate n = true →
        (best_go tnow l i bi bd).2 ≤ |n.target_time - tnow| := by
  intro l
  induction l with
  | nil => intro i bi bd n hn; cases hn
  | cons m rest ih =>
    intro i bi bd n hn hc
    cases hskip : (m.dead || m.hit || m.dummy) with
    | true =>
      rw [best_go_cons_skip tnow m rest i bi bd hskip]
      rcases List.mem_cons.mp hn with h | h
      · subst h
        rw [isCandidate, hskip] at hc
        cases hc
      · exact ih _ _ _ n h hc
    | false =>
      by_cases hlt : |m.target_time - tnow| < bd
      · rw [best_go_cons_upd tnow m rest i bi bd hskip hlt]
        rcases List.mem_cons.mp hn with h | h
        · subst h
          exact best_go_bd_le tnow rest _ _ _
        · exact ih _ _ _ n h hc
      · rw [best_go_cons_keep tnow m rest i bi bd hskip hlt]
        rcases List.mem_cons.mp hn with h | h
        · subst h
          exact le_trans (best_go_bd_le tnow rest _ _ _) (not_lt.mp hlt)
        · exact ih _ _ _ n h hc

theorem best_go_some_stays (tnow : ℚ) :
    ∀ (l : List Note) (i j : ℕ) (bd : ℚ),
      ∃ k, (best_go tnow l i (some j) bd).1 = some k := by
  intro l
  induction l with
  | nil => intro i j bd; exact ⟨j, rfl⟩
  | cons m rest ih =>
    intro i j bd
    cases hskip : (m.dead || m.hit || m.dummy) with
    | true =>
      rw [best_go_cons_skip tnow m rest i (some j) bd hskip]
      exact ih _ _ _
    | false =>
      by_cases hlt : |m.target_time - tnow| < bd
      · rw [best_go_cons_upd tnow m rest i (some j) bd hskip hlt]
        exact ih _ _ _
      · rw [best_go_cons_keep tnow m rest i (some j) bd hskip hlt]
        exact ih _ _ _

theorem best_go_found (tnow : ℚ) :
    ∀ (l : List Note) (i : ℕ) (bi : Option ℕ) (bd : ℚ) (j : ℕ),
      (best_go tnow l i bi bd).1 = some j →
      (bi = some j ∧ (best_go tnow l i bi bd).2 = bd) ∨
      (∃ k, ∃ h : k < l.length, j = i + k ∧ isCandidate (l.get ⟨k, h⟩) = true ∧
        (best_go tnow l i bi bd).2 = |(l.get ⟨k, h⟩).target_time - tnow|) := by
  intro l
  induction l with
  | nil => intro i bi bd j h; exact Or.inl ⟨h, rfl⟩
  | cons m rest ih =>
    intro i bi bd j hj
    cases hskip : (m.dead || m.hit || m.dummy) with
    | true =>
      rw [best_go_cons_skip tnow m rest i bi bd hskip] at hj ⊢
      rcases ih (i+1) bi bd j hj with h | ⟨k, hk, hjk, hc, hd⟩
      · exact Or.inl h
      · refine Or.inr ⟨k+1, Nat.succ_lt_succ hk, by omega, ?_, ?_⟩
        · simpa using hc
        · simpa using hd
    | false =>
      by_cases hlt : |m.target_time - tnow| < bd
      · rw [best_go_cons_upd tnow m rest i bi bd hskip hlt] at hj ⊢
        rcases ih (i+1) (some i) _ j hj with ⟨h1, h2⟩ | ⟨k, hk, hjk, hc, hd⟩
        · injection h1 with h1e
          subst h1e
          refine Or.inr ⟨0, Nat.succ_pos _, by omega, ?_, ?_⟩
          · simpa using isCandidate_of_skip_false m hskip
          · simpa using h2
        · refine Or.inr ⟨k+1, Nat.succ_lt_succ hk, by omega, ?_, ?_⟩
          · simpa using hc
          · simpa using hd
      · rw [best_go_cons_keep tnow m rest i bi bd hskip hlt] at hj ⊢
        rcases ih (i+1) bi bd j hj with h | ⟨k, hk, hjk, hc, hd⟩
        · exact Or.inl h
        · refine Or.inr ⟨k+1, Nat.succ_lt_succ hk, by omega, ?_, ?_⟩
          · simpa using hc
          · simpa using hd

theorem best_go_progress (tnow : ℚ) :
    ∀ (l : List Note) (i : ℕ) (bi : Option ℕ) (bd : ℚ),
      (∃ n ∈ l, isCandidate n = true ∧ |n.target_time - tnow| < bd) →
      ∃ j, (best_go tnow l i bi bd).1 = some j := by
  intro l
  induction l with
  | nil => intro i bi bd ⟨n, hn, _⟩; cases hn
  | cons m rest ih =>
    intro i bi bd ⟨n, hn, hc, hd⟩
    cases hskip : (m.dead || m.hit || m.dummy) with
    | true =>
      rw [best_go_cons_skip tnow m rest i bi bd hskip]
      rcases List.mem_cons.mp hn with h | h
      · subst h
        rw [isCandidate, hskip] at hc
        cases hc
      · exact ih _ _ _ ⟨n, h, hc, hd⟩
    | false =>
      by_cases hlt : |m.target_time - tnow| < bd
      · rw [best_go_cons_upd tnow m rest i bi bd hskip hlt]
        exact best_go_some_stays tnow rest _ _ _
      · rw [best_go_cons_keep tnow m rest i bi bd hskip hlt]
        rcases List.mem_cons.mp hn with h | h
        · subst h
          exact absurd hd hlt
        · exact ih _ _ _ ⟨n, h, hc, hd⟩

theorem record_gimmick_notes (s : GState) (g : Gimmick) :
    (record_gimmick s g).notes = s.notes := by
  unfold record_gimmick; split <;> rfl

theorem record_gimmick_combo (s : GState) (g : Gimmick) :
    (record_gimmick s g).combo = s.combo := by
  unfold record_gimmick; split <;> rfl

theorem record_gimmick_misses (s : GState) (g : Gimmick) :
    (record_gimmick s g).misses = s.misses := by
  unfold record_gimmick; split <;> rfl

theorem trigger_notes (pick : ℕ → Option Gimmick) (s : GState) :
    (trigger_random_gimmick pick s).notes = s.notes := by
  unfold trigger_random_gimmick
  cases pick s.draws with
  | none => rfl
  | some g => simp [record_gimmick_notes]

theorem trigger_combo (pick : ℕ → Option Gimmick) (s : GState) :
    (trigger_random_gimmick pick s).combo = s.combo := by
  unfold trigger_random_gimmick
  cases pick s.draws with
  | none => rfl
  | some g => simp [record_gimmick_combo]

theorem trigger_misses (pick : ℕ → Option Gimmick) (s : GState) :
    (trigger_random_gimmick pick s).misses = s.misses := by
  unfold trigger_random_gimmick
  cases pick s.draws with
  | none => rfl
  | some g => simp [record_gimmick_misses]

theorem trigger_difficulty (pick : ℕ → Option Gimmick) (s : GState) :
    (trigger_random_gimmick pick s).difficulty = s.difficulty := by
  unfold trigger_random_gimmick
  cases pick s.draws with
  | none => rfl
  | some g => simp [record_gimmick]; split <;> rfl

theorem DIFF_WINDOW_pos (d : Difficulty) : 0 < DIFF_WINDOW d := by
  cases d <;> norm_num [DIFF_WINDOW]

theorem compute_judgement_eq_miss (diff : Difficulty) (dt : ℚ)
    (h : OK_WINDOW * DIFF_WINDOW diff < dt) : compute_judgement diff dt = "MISS" := by
  have hw := DIFF_WINDOW_pos diff
  have hPO : PERFECT_WINDOW * DIFF_WINDOW diff ≤ OK_WINDOW * DIFF_WINDOW diff :=
    mul_le_mul_of_nonneg_right (by norm_num [PERFECT_WINDOW, OK_WINDOW]) hw.le
  have hGO : GOOD_WINDOW * DIFF_WINDOW diff ≤ OK_WINDOW * DIFF_WINDOW diff :=
    mul_le_mul_of_nonneg_right (by norm_num [GOOD_WINDOW, OK_WINDOW]) hw.le
  unfold compute_judgement
  rw [if_neg (by linarith), if_neg (by linarith), if_neg (by linarith)]

theorem hit_check_eq_nocand (pick : ℕ → Option Gimmick) (tnow : ℚ) (s : GState)
    (h : ∀ n ∈ s.notes, isCandidate n = false) :
    hit_check pick tnow s =
      { s with
        combo := 0
        misses := s.misses + 1
        judge_text := "MISS"
        judge_time_end := tnow + 7/10
        hannya_visible := true
        hannya_hidden_behind := s.hannya_hidden_behind ||
          decide (HIDE_STEP ≤ s.misses + 1 ∧ s.misses + 1 < MISS_LIMIT_MAP s.difficulty) } := by
  have hb : bestSearch tnow s.notes = (none, 10^9) :=
    best_go_none tnow s.notes 0 none (10^9) h
  unfold hit_check
  rw [hb]

theorem hit_check_eq_miss (pick : ℕ → Option Gimmick) (tnow : ℚ) (s : GState)
    (i : ℕ) (bd : ℚ) (hb : bestSearch tnow s.notes = (some i, bd))
    (hm : compute_judgement s.difficulty bd = "MISS") :
    hit_check pick tnow s =
      { s with
        combo := 0
        misses := s.misses + 1
        judge_text := "MISS"
        judge_time_end := tnow + 7/10
        hannya_visible := true
        hannya_hidden_behind := s.hannya_hidden_behind ||
          decide (HIDE_STEP ≤ s.misses + 1 ∧ s.misses + 1 < MISS_LIMIT_MAP s.difficulty) } := by
  unfold hit_check
  rw [hb]
  simp only [hm]
  rw [if_neg (by simp)]

theorem hit_check_hit (pick : ℕ → Option Gimmick) (tnow : ℚ) (s : GState)
    (i : ℕ) (bd : ℚ) (hb : bestSearch tnow s.notes = (some i, bd))
    (hm : compute_judgement s.difficulty bd ≠ "MISS") :
    (hit_check pick tnow s).notes = s.notes.eraseIdx i ∧
    (hit_check pick tnow s).combo = s.combo + 1 ∧
    (hit_check pick tnow s).misses = s.misses := by
  unfold hit_check
  rw [hb]
  simp only []
  rw [if_pos hm]
  by_cases hy : s.yakubi_mode = false ∧ (s.combo + 1) % GIMMICK_COMBO_THRESHOLD = 0
  · rw [if_pos hy]
    refine ⟨?_, ?_, ?_⟩
    · rw [trigger_notes]
    · rw [trigger_combo]
    · rw [trigger_misses]
  · rw [if_neg hy]
    exact ⟨rfl, rfl, rfl⟩

/-- Claim C3: on a hit input, among all live non-decoy notes the one with
minimal `|target_time - now|` is selected; if no such note exists, or the
selected note's delta classifies as MISS, combo becomes 0 and the miss
counter increments; if it classifies as PERFECT/GOOD/OK, exactly that note
is removed and combo increments.  (The selection clause is stated under the
side condition that some candidate's delta is below the `1e9` search
sentinel, which holds for every note alive during play.) -/
theorem c3_nearest_note_judgement (pick : ℕ → Option Gimmick) (tnow : ℚ) (s : GState) :
    ((∀ n ∈ s.notes, isCandidate n = false) →
      (hit_check pick tnow s).combo = 0 ∧
      (hit_check pick tnow s).misses = s.misses + 1 ∧
      (hit_check pick tnow s).notes = s.notes) ∧
    ((∃ n ∈ s.notes, isCandidate n = true ∧ |n.target_time - tnow| < 10^9) →
      ∃ i, ∃ h : i < s.notes.length,
        isCandidate (s.notes.get ⟨i, h⟩) = true ∧
        (∀ n ∈ s.notes, isCandidate n = true →
          |(s.notes.get ⟨i, h⟩).target_time - tnow| ≤ |n.target_time - tnow|) ∧
        (compute_judgement s.difficulty |(s.notes.get ⟨i, h⟩).target_time - tnow| = "MISS" →
          (hit_check pick tnow s).combo = 0 ∧
          (hit_check pick tnow s).misses = s.misses + 1 ∧
          (hit_check pick tnow s).notes = s.notes) ∧
        (compute_judgement s.difficulty |(s.notes.get ⟨i, h⟩).target_time - tnow| ≠ "MISS" →
          (hit_check pick tnow s).notes = s.notes.eraseIdx i ∧
          (hit_check pick tnow s).combo = s.combo + 1 ∧
          (hit_check pick tnow s).misses = s.misses)) := by
  constructor
  · intro h
    rw [hit_check_eq_nocand pick tnow s h]
    exact ⟨rfl, rfl, rfl⟩
  · intro hex
    obtain ⟨j, hj⟩ := best_go_progress tnow s.notes 0 none (10^9) hex
    rcases best_go_found tnow s.notes 0 none (10^9) j hj with ⟨h1, _⟩ | ⟨k, hk, hjk, hcand, hd⟩
    · exact absurd h1 (by simp)
    · have hjk' : j = k := by omega
      subst hjk'
      have hb : bestSearch tnow s.notes =
          (some j, |(s.notes.get ⟨j, hk⟩).target_time - tnow|) := by
        rcases hbs : bestSearch tnow s.notes with ⟨a, b⟩
        unfold bestSearch at hbs
        rw [hbs] at hj hd
        simp only at hj hd
        rw [hj, hd]
      refine ⟨j, hk, hcand, ?_, ?_, ?_⟩
      · intro m hm hcm
        have hmin := best_go_min tnow s.notes 0 none (10^9) m hm hcm
        rw [show (best_go tnow s.notes 0 none (10^9)).2 =
              |(s.notes.get ⟨j, hk⟩).target_time - tnow| from hd] at hmin
        exact hmin
      · intro hmj
        rw [hit_check_eq_miss pick tnow s j _ hb hmj]
        exact ⟨rfl, rfl, rfl⟩
      · intro hmj
        exact hit_check_hit pick tnow s j _ hb hmj

/-- Mid-play state with a single live real note for the C3 witness. -/
def oneNoteState : GState :=
  { baseState with
    scene := Scene.game
    notes := [Note.init 1 (LANE_X : ℚ) false] }

/-- Witness for C3: the selection clause applied to a state with one live
real note hit exactly on time (delta 0, PERFECT): the note is removed and
the combo increments. -/
theorem c3_nearest_note_judgement_witness :
    (hit_check pickNone 1 oneNoteState).combo = 1 ∧
    (hit_check pickNone 1 oneNoteState).notes = [] := by
  obtain ⟨i, hlen, hcand, hmin, hmiss, hhit⟩ :=
    (c3_nearest_note_judgement pickNone 1 oneNoteState).2
      ⟨Note.init 1 (LANE_X : ℚ) false, by simp [oneNoteState, baseState], rfl,
        by norm_num [Note.init]⟩
  have hi : i = 0 := by
    have : i < 1 := by simpa [oneNoteState, baseState] using hlen
    omega
  subst hi
  have hne : compute_judgement oneNoteState.difficulty
      |((oneNoteState.notes.get ⟨0, hlen⟩)).target_time - 1| ≠ "MISS" := by
    have hget : (oneNoteState.notes.get ⟨0, hlen⟩) = Note.init 1 (LANE_X : ℚ) false := rfl
    rw [hget]
    have : |(Note.init 1 (LANE_X : ℚ) false).target_time - (1:ℚ)| = 0 := by
      norm_num [Note.init]
    rw [this]
    have hp : compute_judgement oneNoteState.difficulty 0 = "PERFECT" := by
      unfold compute_judgement
      rw [if_pos]
      norm_num [PERFECT_WINDOW, oneNoteState, baseState, DIFF_WINDOW]
    rw [hp]
    decide
  obtain ⟨hn, hc, _⟩ := hhit hne
  constructor
  · rw [hc]; rfl
  · rw [hn]; rfl

theorem isCandidate_dead (n : Note) (h : isCandidate n = true) : n.dead = false := by
  have h2 := isCandidate_true n h
  simp only [Bool.or_eq_false_iff] at h2
  exact h2.1.1

/-- Claim C10: a hit input whose nearest live real note classifies as MISS
leaves that note in the active set (with combo reset and miss counter +1),
and when the same note later exceeds the grace period its expiry registers a
second automatic miss — one badly-timed note increments the miss counter
twice. -/
theorem c10_bad_hit_then_expiry (pick : ℕ → Option Gimmick) (tnow t2 : ℚ) (s : GState)
    (n : Note) (hnotes : s.notes = [n]) (hcand : isCandidate n = true)
    (hmiss : OK_WINDOW * DIFF_WINDOW s.difficulty < |n.target_time - tnow|)
    (hsent : |n.target_time - tnow| < 10^9)
    (hexp : OK_WINDOW * DIFF_WINDOW s.difficulty + 1/100 < t2 - n.target_time) :
    (hit_check pick tnow s).notes = [n] ∧
    (hit_check pick tnow s).misses = s.misses + 1 ∧
    (hit_check pick tnow s).combo = 0 ∧
    (updateNotesStep t2 (hit_check pick tnow s)).notes = [] ∧
    (updateNotesStep t2 (hit_check pick tnow s)).misses = s.misses + 2 ∧
    (updateNotesStep t2 (hit_check pick tnow s)).combo = 0 := by
  have hskip := isCandidate_true n hcand
  have hb : bestSearch tnow s.notes = (some 0, |n.target_time - tnow|) := by
    rw [hnotes]
    unfold bestSearch
    rw [best_go_cons_upd tnow n [] 0 none (10^9) hskip hsent]
    rfl
  have hmj : compute_judgement s.difficulty |n.target_time - tnow| = "MISS" :=
    compute_judgement_eq_miss _ _ hmiss
  have heq := hit_check_eq_miss pick tnow s 0 _ hb hmj
  have hdead : (n.update t2 s.difficulty).dead = true := by
    rw [Note.update_dead, isCandidate_dead n hcand]
    simpa using hexp
  refine ⟨by rw [heq]; exact hnotes, by rw [heq], by rw [heq], ?_, ?_, ?_⟩
  · unfold updateNotesStep
    rw [updateNotesGo_notes, heq]
    simp [hnotes, List.filter, hdead]
  · unfold updateNotesStep
    rw [updateNotesGo_misses, heq]
    simp [hnotes, List.filter, hdead]
  · unfold updateNotesStep
    rw [updateNotesGo_combo, heq]
    simp [hnotes, hdead]

/-- Witness for C10: the double-miss theorem applied to a state with one
live real note with `target_time = 1`, a badly-timed hit at `tnow = 1/2`
(delta `1/2 >` OK window `0.14`) and an update at `t2 = 2` (age `1 >` grace
`0.15`): the miss counter ends at 2 and the note is gone. -/
theorem c10_bad_hit_then_expiry_witness :
    (updateNotesStep 2 (hit_check pickNone (1/2) oneNoteState)).misses = 2 ∧
    (updateNotesStep 2 (hit_check pickNone (1/2) oneNoteState)).notes = [] := by
  have habs : |(Note.init 1 (LANE_X : ℚ) false).target_time - (1/2 : ℚ)| = 1/2 := by
    rw [show (Note.init 1 (LANE_X : ℚ) false).target_time - (1/2 : ℚ) = 1/2 by
      norm_num [Note.init]]
    norm_num
  obtain ⟨h1, h2, h3, h4, h5, h6⟩ :=
    c10_bad_hit_then_expiry pickNone (1/2) 2 oneNoteState
      (Note.init 1 (LANE_X : ℚ) false) rfl rfl
      (by rw [habs]; norm_num [OK_WINDOW, DIFF_WINDOW, oneNoteState, baseState])
      (by rw [habs]; norm_num)
      (by norm_num [OK_WINDOW, DIFF_WINDOW, oneNoteState, baseState, Note.init])
  refine ⟨?_, h4⟩
  rw [h5]
  rfl

/-! Properties of the note scheduler. -/

theorem SPB_pos : 0 < SPB := by norm_num [SPB, BPM]

theorem due_iff (anchor tnow : ℚ) (idx : ℕ) :
    beat_time anchor idx - NOTE_TRAVEL_SEC ≤ tnow ↔
      (idx : ℤ) ≤ ⌊(tnow + NOTE_TRAVEL_SEC - anchor) / SPB⌋ := by
  have h1 : beat_time anchor idx - NOTE_TRAVEL_SEC ≤ tnow ↔
      (idx : ℚ) ≤ (tnow + NOTE_TRAVEL_SEC - anchor) / SPB := by
    rw [beat_time, le_div_iff₀ SPB_pos]
    constructor <;> intro <;> linarith
  rw [h1, Int.le_floor]
  push_cast
  exact Iff.rfl

theorem dueCount_pos_eq (anchor tnow : ℚ) (idx : ℕ)
    (h : beat_time anchor idx - NOTE_TRAVEL_SEC ≤ tnow) :
    dueCount anchor tnow idx = dueCount anchor tnow (idx+1) + 1 := by
  have hf := (due_iff anchor tnow idx).mp h
  unfold dueCount
  omega

theorem dueCount_zero (anchor tnow : ℚ) (idx : ℕ)
    (h : ¬ beat_time anchor idx - NOTE_TRAVEL_SEC ≤ tnow) :
    dueCount anchor tnow idx = 0 := by
  have hf : ¬ (idx : ℤ) ≤ ⌊(tnow + NOTE_TRAVEL_SEC - anchor) / SPB⌋ :=
    fun hc => h ((due_iff anchor tnow idx).mpr hc)
  unfold dueCount
  omega

theorem dueCount_zero_not_due (anchor tnow : ℚ) (idx : ℕ)
    (h : dueCount anchor tnow idx = 0) :
    ¬ beat_time anchor idx - NOTE_TRAVEL_SEC ≤ tnow := by
  intro hd
  rw [dueCount_pos_eq anchor tnow idx hd] at h
  omega

/-- With the exact number of due beats as fuel, `scheduleGo` satisfies the
defining equation of the Python `while True` loop of
`schedule_notes_up_to`. -/
theorem scheduleGo_eq (pick : ℕ → Option Gimmick) (anchor tnow : ℚ) (idx : ℕ) (s : GState) :
    scheduleGo pick anchor tnow (dueCount anchor tnow idx) idx s =
      if beat_time anchor idx - NOTE_TRAVEL_SEC ≤ tnow then
        scheduleGo pick anchor tnow (dueCount anchor tnow (idx+1)) (idx+1)
          (spawn_one pick anchor idx s)
      else { s with spawn_index := idx } := by
  by_cases h : beat_time anchor idx - NOTE_TRAVEL_SEC ≤ tnow
  · rw [if_pos h, dueCount_pos_eq anchor tnow idx h]
    simp only [scheduleGo, if_pos h]
  · rw [if_neg h, dueCount_zero anchor tnow idx h]
    simp only [scheduleGo]

theorem scheduleGo_exit (pick : ℕ → Option Gimmick) (anchor tnow : ℚ) :
    ∀ (fuel idx : ℕ) (s : GState), fuel = dueCount anchor tnow idx →
      ¬ beat_time anchor ((scheduleGo pick anchor tnow fuel idx s).spawn_index)
          - NOTE_TRAVEL_SEC ≤ tnow := by
  intro fuel
  induction fuel with
  | zero =>
    intro idx s h
    simp only [scheduleGo]
    exact dueCount_zero_not_due anchor tnow idx h.symm
  | succ f ih =>
    intro idx s h
    by_cases hd : beat_time anchor idx - NOTE_TRAVEL_SEC ≤ tnow
    · simp only [scheduleGo, if_pos hd]
      apply ih
      have := dueCount_pos_eq anchor tnow idx hd
      omega
    · simp only [scheduleGo, if_neg hd]
      exact hd

theorem record_gimmick_spawned (s : GState) (g : Gimmick) :
    (record_gimmick s g).spawned_target_times = s.spawned_target_times := by
  unfold record_gimmick; split <;> rfl

theorem record_gimmick_next_beat (s : GState) (g : Gimmick) :
    (record_gimmick s g).next_beat_time = s.next_beat_time := by
  unfold record_gimmick; split <;> rfl

theorem trigger_spawned (pick : ℕ → Option Gimmick) (s : GState) :
    (trigger_random_gimmick pick s).spawned_target_times = s.spawned_target_times := by
  unfold trigger_random_gimmick
  cases pick s.draws with
  | none => rfl
  | some g => simp [record_gimmick_spawned]

theorem trigger_next_beat (pick : ℕ → Option Gimmick) (s : GState) :
    (trigger_random_gimmick pick s).next_beat_time = s.next_beat_time := by
  unfold trigger_random_gimmick
  cases pick s.draws with
  | none => rfl
  | some g => simp [record_gimmick_next_beat]

theorem spawn_one_mem (pick : ℕ → Option Gimmick) (anchor : ℚ) (idx : ℕ) (s : GState)
    (h : beat_time anchor idx ∈ s.spawned_target_times) :
    spawn_one pick anchor idx s = s := by
  unfold spawn_one
  rw [if_pos h]

theorem spawn_one_notes_new (pick : ℕ → Option Gimmick) (anchor : ℚ) (idx : ℕ) (s : GState)
    (h : beat_time anchor idx ∉ s.spawned_target_times) :
    (spawn_one pick anchor idx s).notes =
      s.notes ++ [Note.init (beat_time anchor idx) (LANE_X : ℚ) false] ∧
    (spawn_one pick anchor idx s).spawned_target_times =
      beat_time anchor idx :: s.spawned_target_times := by
  unfold spawn_one
  rw [if_neg h]
  dsimp only
  constructor
  · split
    · rw [trigger_notes]
    · rfl
  · split
    · rw [trigger_spawned]
    · rfl

theorem spawn_one_next_beat (pick : ℕ → Option Gimmick) (anchor : ℚ) (idx : ℕ) (s : GState) :
    (spawn_one pick anchor idx s).next_beat_time = s.next_beat_time := by
  unfold spawn_one
  dsimp only
  split
  · rfl
  · split
    · rw [trigger_next_beat]
    · rfl

theorem scheduleGo_next_beat (pick : ℕ → Option Gimmick) (anchor tnow : ℚ) :
    ∀ (fuel idx : ℕ) (s : GState),
      (scheduleGo pick anchor tnow fuel idx s).next_beat_time = s.next_beat_time := by
  intro fuel
  induction fuel with
  | zero => intro idx s; rfl
  | succ f ih =>
    intro idx s
    by_cases hd : beat_time anchor idx - NOTE_TRAVEL_SEC ≤ tnow
    · simp only [scheduleGo, if_pos hd]
      rw [ih, spawn_one_next_beat]
    · simp only [scheduleGo, if_neg hd]

/-- Structural specification of the scheduling loop: it only appends notes;
every appended note is a real (non-decoy) note whose target time was not yet
in `spawned_target_times` and is recorded there afterwards; the appended
target times are pairwise distinct; and the spawned set only grows. -/
theorem scheduleGo_spec (pick : ℕ → Option Gimmick) (anchor tnow : ℚ) :
    ∀ (fuel idx : ℕ) (s : GState),
      ∃ new : List Note,
        (scheduleGo pick anchor tnow fuel idx s).notes = s.notes ++ new ∧
        (new.map Note.target_time).Nodup ∧
        (∀ n ∈ new, n.dummy = false ∧ n.target_time ∉ s.spawned_target_times ∧
          n.target_time ∈ (scheduleGo pick anchor tnow fuel idx s).spawned_target_times) ∧
        (∀ q ∈ s.spawned_target_times,
          q ∈ (scheduleGo pick anchor tnow fuel idx s).spawned_target_times) := by
  intro fuel
  induction fuel with
  | zero =>
    intro idx s
    exact ⟨[], by simp [scheduleGo], by simp, by simp, fun q hq => hq⟩
  | succ f ih =>
    intro idx s
    by_cases hd : beat_time anchor idx - NOTE_TRAVEL_SEC ≤ tnow
    · simp only [scheduleGo, if_pos hd]
      by_cases hmem : beat_time anchor idx ∈ s.spawned_target_times
      · rw [spawn_one_mem pick anchor idx s hmem]
        exact ih (idx+1) s
      · obtain ⟨hnotes, hspawned⟩ := spawn_one_notes_new pick anchor idx s hmem
        obtain ⟨new, h1, h2, h3, h4⟩ := ih (idx+1) (spawn_one pick anchor idx s)
        have hfresh : ∀ n ∈ new, n.target_time ≠ beat_time anchor idx ∧
            n.target_time ∉ s.spawned_target_times := by
          intro n hn
          have hni := (h3 n hn).2.1
          rw [hspawned] at hni
          exact ⟨fun he => hni (by rw [he]; exact List.mem_cons_self _ _),
            fun he => hni (List.mem_cons_of_mem _ he)⟩
        refine ⟨Note.init (beat_time anchor idx) (LANE_X : ℚ) false :: new, ?_, ?_, ?_, ?_⟩
        · rw [h1, hnotes, List.append_assoc]
          rfl
        · simp only [List.map_cons, List.nodup_cons]
          refine ⟨?_, h2⟩
          intro hmem2
          obtain ⟨n, hn, hnt⟩ := List.mem_map.mp hmem2
          exact (hfresh n hn).1 hnt
        · intro n hn
          rcases List.mem_cons.mp hn with he | hm
          · subst he
            refine ⟨rfl, hmem, ?_⟩
            have : beat_time anchor idx ∈ (spawn_one pick anchor idx s).spawned_target_times := by
              rw [hspawned]
              exact List.mem_cons_self _ _
            exact h4 _ this
          · exact ⟨(h3 n hm).1, (hfresh n hm).2, (h3 n hm).2.2⟩
        · intro q hq
          apply h4
          rw [hspawned]
          exact List.mem_cons_of_mem _ hq
    · simp only [scheduleGo, if_neg hd]
      exact ⟨[], by simp, by simp, by simp, fun q hq => hq⟩

/-- The scheduler is idempotent as a state transformer: a second call with
the same `now` is the identity. -/
theorem schedule_idem (pick : ℕ → Option Gimmick) (tnow : ℚ) (s : GState) :
    schedule_notes_up_to pick tnow (schedule_notes_up_to pick tnow s) =
      schedule_notes_up_to pick tnow s := by
  cases hnb : s.next_beat_time with
  | none =>
    have h1 : schedule_notes_up_to pick tnow s = s := by
      unfold schedule_notes_up_to
      rw [hnb]
    rw [h1, h1]
  | some anchor =>
    have h1 : schedule_notes_up_to pick tnow s =
        scheduleGo pick anchor tnow (dueCount anchor tnow s.spawn_index) s.spawn_index s := by
      unfold schedule_notes_up_to
      rw [hnb]
    have hrb : (scheduleGo pick anchor tnow (dueCount anchor tnow s.spawn_index)
        s.spawn_index s).next_beat_time = some anchor := by
      rw [scheduleGo_next_beat]
      exact hnb
    rw [h1]
    unfold schedule_notes_up_to
    rw [hrb]
    dsimp only
    have hexit := scheduleGo_exit pick anchor tnow
      (dueCount anchor tnow s.spawn_index) s.spawn_index s rfl
    rw [dueCount_zero anchor tnow _ hexit]
    rfl

/-- The scheduler's no-double-spawn invariant: every real note's target time
is registered in `spawned_target_times`, and the real notes' target times
are pairwise distinct. -/
def SchedInv (s : GState) : Prop :=
  (∀ n ∈ s.notes, n.dummy = false → n.target_time ∈ s.spawned_target_times) ∧
  ((s.notes.filter (fun n => !n.dummy)).map Note.target_time).Nodup

theorem schedule_inv (pick : ℕ → Option Gimmick) (tnow : ℚ) (s : GState)
    (h : SchedInv s) : SchedInv (schedule_notes_up_to pick tnow s) := by
  unfold schedule_notes_up_to
  cases hnb : s.next_beat_time with
  | none => exact h
  | some anchor =>
    obtain ⟨new, h1, h2, h3, h4⟩ :=
      scheduleGo_spec pick anchor tnow (dueCount anchor tnow s.spawn_index) s.spawn_index s
    constructor
    · intro n hn hd
      rw [h1] at hn
      rcases List.mem_append.mp hn with hm | hm
      · exact h4 _ (h.1 n hm hd)
      · exact (h3 n hm).2.2
    · rw [h1, List.filter_append, List.map_append]
      have hnewf : new.filter (fun n => !n.dummy) = new := by
        apply List.filter_eq_self.mpr
        intro a ha
        simp [(h3 a ha).1]
      rw [hnewf, List.nodup_append]
      refine ⟨h.2, h2, ?_⟩
      intro t ht hmem2
      obtain ⟨n, hnf, hnt⟩ := List.mem_map.mp ht
      obtain ⟨m, hm, hmt⟩ := List.mem_map.mp hmem2
      have hnn := List.mem_filter.mp hnf
      have hnd : n.dummy = false := by simpa using hnn.2
      have hsp : n.target_time ∈ s.spawned_target_times := h.1 n hnn.1 hnd
      apply (h3 m hm).2.1
      rw [hmt, ← hnt]
      exact hsp

/-- Claim C5: scheduling is idempotent — a second `schedule_notes_up_to`
call with the same `now` changes nothing — and it never double-spawns a
beat: under the scheduler invariant (every real note's target registered in
`spawned_target_times`, real targets pairwise distinct) any call, and any
pair of calls at non-decreasing times (including catch-up bursts that
materialize many beats at once), preserves the invariant, so no beat's
target time is ever spawned twice. -/
theorem c5_scheduler_idempotent :
    (∀ (pick : ℕ → Option Gimmick) (tnow : ℚ) (s : GState),
      schedule_notes_up_to pick tnow (schedule_notes_up_to pick tnow s) =
        schedule_notes_up_to pick tnow s) ∧
    (∀ (pick : ℕ → Option Gimmick) (tnow : ℚ) (s : GState),
      SchedInv s → SchedInv (schedule_notes_up_to pick tnow s)) ∧
    (∀ (pick : ℕ → Option Gimmick) (t1 t2 : ℚ) (s : GState),
      SchedInv s → SchedInv (schedule_notes_up_to pick t2 (schedule_notes_up_to pick t1 s))) :=
  ⟨schedule_idem, schedule_inv,
    fun pick t1 t2 s h => schedule_inv pick t2 _ (schedule_inv pick t1 s h)⟩

/-- Witness for C5: the invariant-preservation conjunct applied to the
initial state (which trivially satisfies the invariant) at `now = 5`. -/
theorem c5_scheduler_idempotent_witness :
    SchedInv baseState ∧ SchedInv (schedule_notes_up_to pickNone 5 baseState) :=
  ⟨⟨fun n hn => absurd hn (List.not_mem_nil n), by simp [baseState]⟩,
    c5_scheduler_idempotent.2.1 pickNone 5 baseState
      ⟨fun n hn => absurd hn (List.not_mem_nil n), by simp [baseState]⟩⟩

/-- Claim C6: the nth beat's target time is `beat_anchor + n * SPB`, so
consecutive target times differ by exactly `SPB`; every constructed note's
`spawn_time` is `target_time - NOTE_TRAVEL_SEC`; and with `offset = 0` the
beat anchor equals `prep_end_time` and the first scheduled note (scheduling
at the session-start instant) has `target_time = prep_end_time` and
`spawn_time` exactly `NOTE_TRAVEL_SEC` earlier.  (Arithmetic is exact over
`ℚ`.) -/
theorem c6_beat_grid :
    (∀ (anchor : ℚ) (n : ℕ), beat_time anchor (n+1) - beat_time anchor n = SPB) ∧
    (∀ (t x : ℚ) (d : Bool), (Note.init t x d).spawn_time = t - NOTE_TRAVEL_SEC) ∧
    (∀ (pick : ℕ → Option Gimmick) (t0 : ℚ) (s : GState), s.offset_seconds = 0 →
      (start_session t0 s).next_beat_time = (start_session t0 s).prep_end_time ∧
      (schedule_notes_up_to pick t0 (start_session t0 s)).notes =
        [Note.init (t0 + START_PREP_DELAY) (LANE_X : ℚ) false] ∧
      (Note.init (t0 + START_PREP_DELAY) (LANE_X : ℚ) false).target_time =
        t0 + START_PREP_DELAY ∧
      (Note.init (t0 + START_PREP_DELAY) (LANE_X : ℚ) false).spawn_time =
        (t0 + START_PREP_DELAY) - NOTE_TRAVEL_SEC) := by
  refine ⟨?_, fun t x d => rfl, ?_⟩
  · intro anchor n
    unfold beat_time
    push_cast
    ring
  · intro pick t0 s hoff
    have hanchor : (start_session t0 s).next_beat_time = some (t0 + START_PREP_DELAY) := by
      simp [start_session, hoff]
    refine ⟨?_, ?_, rfl, rfl⟩
    · rw [hanchor]
      rfl
    · unfold schedule_notes_up_to
      rw [hanchor]
      have hsp0 : (start_session t0 s).spawn_index = 0 := rfl
      rw [hsp0]
      dsimp only
      have hbt0 : beat_time (t0 + START_PREP_DELAY) 0 = t0 + START_PREP_DELAY := by
        simp [beat_time]
      have hdc : dueCount (t0 + START_PREP_DELAY) t0 0 = 1 := by
        unfold dueCount
        rw [show t0 + NOTE_TRAVEL_SEC - (t0 + START_PREP_DELAY) = 0 by
          norm_num [NOTE_TRAVEL_SEC, START_PREP_DELAY]]
        rw [zero_div]
        norm_num
      rw [hdc]
      have hdue : beat_time (t0 + START_PREP_DELAY) 0 - NOTE_TRAVEL_SEC ≤ t0 := by
        rw [hbt0]
        norm_num [NOTE_TRAVEL_SEC, START_PREP_DELAY]
      simp only [scheduleGo, if_pos hdue]
      have hmem : beat_time (t0 + START_PREP_DELAY) 0 ∉
          (start_session t0 s).spawned_target_times := by
        rw [show (start_session t0 s).spawned_target_times = [] from rfl]
        exact List.not_mem_nil _
      obtain ⟨hn, _⟩ := spawn_one_notes_new pick (t0 + START_PREP_DELAY) 0
        (start_session t0 s) hmem
      show (spawn_one pick (t0 + START_PREP_DELAY) 0 (start_session t0 s)).notes = _
      rw [hn, hbt0]
      rfl

/-- Witness for C6: the anchored-first-note conjunct applied at `t0 = 5` to
the initial state (offset 0). -/
theorem c6_beat_grid_witness :
    baseState.offset_seconds = 0 ∧
    (schedule_notes_up_to pickNone 5 (start_session 5 baseState)).notes =
      [Note.init (5 + START_PREP_DELAY) (LANE_X : ℚ) false] :=
  ⟨rfl, (c6_beat_grid.2.2 pickNone 5 baseState rfl).2.1⟩

/-- Title-screen state in which a slow-motion effect still has 3 seconds of
remaining duration. -/
def c8State : GState :=
  { baseState with effects := fun k => if k = Gimmick.slowmo then 3 else 0 }

/-- Claim C8 counterexample: the Start handler does not reset the effect
durations.  Starting a session from a title-screen state in which `slowmo`
still has 3 seconds remaining enters PLAYING with the effect still at 3. -/
theorem c8_counterexample :
    c8State.effects Gimmick.slowmo = 3 ∧
    (start_session 5 c8State).scene = Scene.game ∧
    (start_session 5 c8State).effects Gimmick.slowmo = 3 := by
  refine ⟨?_, rfl, ?_⟩ <;> simp [c8State, baseState, start_session]

/-- Claim C8 (amended): every transition into PLAYING (Start on the title
screen or Restart after gameover/clear) resets the run state (empty note
list, combo 0, miss counter 0, spawn counter 0, empty spawned-target-time
set, spawn index 0) and re-anchors the clock (new start time, prep end,
beat anchor), but it does NOT reset the effect durations: the `effects`
mapping is carried over unchanged from the previous session. -/
theorem c8_session_reset (tnow : ℚ) (s : GState) :
    ((start_session tnow s).notes = [] ∧
     (start_session tnow s).combo = 0 ∧
     (start_session tnow s).misses = 0 ∧
     (start_session tnow s).spawn_index = 0 ∧
     (start_session tnow s).spawned_target_times = [] ∧
     (start_session tnow s).note_spawn_counter = 0 ∧
     (start_session tnow s).start_time_s = some tnow ∧
     (start_session tnow s).prep_end_time = some (tnow + START_PREP_DELAY) ∧
     (start_session tnow s).next_beat_time = some (tnow + START_PREP_DELAY + s.offset_seconds) ∧
     (start_session tnow s).scene = Scene.game ∧
     (start_session tnow s).effects = s.effects) ∧
    ((restart_session tnow s).notes = [] ∧
     (restart_session tnow s).combo = 0 ∧
     (restart_session tnow s).misses = 0 ∧
     (restart_session tnow s).spawn_index = 0 ∧
     (restart_session tnow s).spawned_target_times = [] ∧
     (restart_session tnow s).note_spawn_counter = 0 ∧
     (restart_session tnow s).start_time_s = some tnow ∧
     (restart_session tnow s).prep_end_time = some (tnow + START_PREP_DELAY) ∧
     (restart_session tnow s).next_beat_time = some (tnow + START_PREP_DELAY + s.offset_seconds) ∧
     (restart_session tnow s).scene = Scene.game ∧
     (restart_session tnow s).effects = s.effects) :=
  ⟨⟨rfl, rfl, rfl, rfl, rfl, rfl, rfl, rfl, rfl, rfl, rfl⟩,
   ⟨rfl, rfl, rfl, rfl, rfl, rfl, rfl, rfl, rfl, rfl, rfl⟩⟩

/-- Gameover state in which the session has recorded the `flash` gimmick. -/
def c9State : GState :=
  { baseState with scene := Scene.gameover, triggered_gimmicks := [Gimmick.flash] }

/-- Claim C9 counterexample: the Title-button handler on the gameover
screen only changes the scene (line 726-727); `triggered_gimmicks` is never
cleared anywhere in the program, so the GimmickLog survives the return to
the title screen. -/
theorem c9_counterexample :
    (handle_event pickNone 5 c9State Event.titleBtn).scene = Scene.start ∧
    (handle_event pickNone 5 c9State Event.titleBtn).triggered_gimmicks = [Gimmick.flash] := by
  constructor <;> rfl

/-- The relation "the second list extends the first at the end" — the sense
in which the GimmickLog is append-only. -/
def appendOnly (l1 l2 : List Gimmick) : Prop := ∃ t, l2 = l1 ++ t

theorem appendOnly_refl (l : List Gimmick) : appendOnly l l := ⟨[], by simp⟩

theorem appendOnly_of_eq {l1 l2 : List Gimmick} (h : l2 = l1) : appendOnly l1 l2 :=
  ⟨[], by simp [h]⟩

theorem appendOnly_trans {a b c : List Gimmick} (h1 : appendOnly a b) (h2 : appendOnly b c) :
    appendOnly a c := by
  obtain ⟨t1, e1⟩ := h1
  obtain ⟨t2, e2⟩ := h2
  exact ⟨t1 ++ t2, by rw [e2, e1, List.append_assoc]⟩

theorem record_appendOnly (s : GState) (g : Gimmick) :
    appendOnly s.triggered_gimmicks (record_gimmick s g).triggered_gimmicks := by
  unfold record_gimmick
  split
  · exact appendOnly_refl _
  · exact ⟨[g], rfl⟩

theorem trigger_appendOnly (pick : ℕ → Option Gimmick) (s : GState) :
    appendOnly s.triggered_gimmicks (trigger_random_gimmick pick s).triggered_gimmicks := by
  unfold trigger_random_gimmick
  cases pick s.draws with
  | none => exact appendOnly_refl _
  | some g =>
    dsimp only
    exact record_appendOnly { s with draws := s.draws + 1 } g

theorem hit_check_appendOnly (pick : ℕ → Option Gimmick) (tnow : ℚ) (s : GState) :
    appendOnly s.triggered_gimmicks (hit_check pick tnow s).triggered_gimmicks := by
  unfold hit_check
  rcases hbs : bestSearch tnow s.notes with ⟨a, b⟩
  cases a with
  | none => exact appendOnly_refl _
  | some i =>
    dsimp only
    split
    · split
      · exact trigger_appendOnly pick _
      · exact appendOnly_refl _
    · exact appendOnly_refl _

theorem spawn_one_appendOnly (pick : ℕ → Option Gimmick) (anchor : ℚ) (idx : ℕ) (s : GState) :
    appendOnly s.triggered_gimmicks (spawn_one pick anchor idx s).triggered_gimmicks := by
  unfold spawn_one
  dsimp only
  split
  · exact appendOnly_refl _
  · split
    · exact trigger_appendOnly pick _
    · exact appendOnly_refl _

theorem scheduleGo_appendOnly (pick : ℕ → Option Gimmick) (anchor tnow : ℚ) :
    ∀ (fuel idx : ℕ) (s : GState),
      appendOnly s.triggered_gimmicks
        (scheduleGo pick anchor tnow fuel idx s).triggered_gimmicks := by
  intro fuel
  induction fuel with
  | zero => intro idx s; exact appendOnly_refl _
  | succ f ih =>
    intro idx s
    by_cases hd : beat_time anchor idx - NOTE_TRAVEL_SEC ≤ tnow
    · simp only [scheduleGo, if_pos hd]
      exact appendOnly_trans (spawn_one_appendOnly pick anchor idx s) (ih _ _)
    · simp only [scheduleGo, if_neg hd]
      exact appendOnly_refl _

theorem schedule_appendOnly (pick : ℕ → Option Gimmick) (tnow : ℚ) (s : GState) :
    appendOnly s.triggered_gimmicks
      (schedule_notes_up_to pick tnow s).triggered_gimmicks := by
  unfold schedule_notes_up_to
  cases s.next_beat_time with
  | none => exact appendOnly_refl _
  | some anchor => exact scheduleGo_appendOnly pick anchor tnow _ _ s

theorem updateNotesStep_triggered (tnow : ℚ) (s : GState) :
    (updateNotesStep tnow s).triggered_gimmicks = s.triggered_gimmicks := by
  unfold updateNotesStep
  rw [updateNotesGo_triggered]

theorem dummy_spawn_step_triggered (roll : Bool) (tnow : ℚ) (s : GState) :
    (dummy_spawn_step roll tnow s).triggered_gimmicks = s.triggered_gimmicks := by
  unfold dummy_spawn_step
  split <;> rfl

theorem bgm_clear_step_triggered (bgm : Option ℚ) (tnow : ℚ) (s : GState) :
    (bgm_clear_step bgm tnow s).triggered_gimmicks = s.triggered_gimmicks := by
  unfold bgm_clear_step
  split
  · split <;> rfl
  · rfl

theorem render_game_state_appendOnly (pick : ℕ → Option Gimmick) (roll : Bool) (tnow : ℚ)
    (s : GState) :
    appendOnly s.triggered_gimmicks
      (render_game_state pick roll tnow s).triggered_gimmicks := by
  unfold render_game_state
  refine appendOnly_trans (schedule_appendOnly pick tnow s) ?_
  apply appendOnly_of_eq
  rw [dummy_spawn_step_triggered, updateNotesStep_triggered]

theorem preCheck_appendOnly (pick : ℕ → Option Gimmick) (roll : Bool) (bgm : Option ℚ)
    (tnow : ℚ) (s : GState) :
    appendOnly s.triggered_gimmicks (preCheck pick roll bgm tnow s).triggered_gimmicks := by
  unfold preCheck
  refine appendOnly_trans (schedule_appendOnly pick tnow s) ?_
  apply appendOnly_of_eq
  rw [bgm_clear_step_triggered, dummy_spawn_step_triggered, updateNotesStep_triggered]

theorem sceneStep_appendOnly (pick : ℕ → Option Gimmick) (roll1 roll2 : Bool)
    (bgm : Option ℚ) (tnow : ℚ) (s : GState) :
    appendOnly s.triggered_gimmicks
      (sceneStep pick roll1 roll2 bgm tnow s).triggered_gimmicks := by
  unfold sceneStep
  cases hsc : s.scene with
  | game =>
    dsimp only
    split
    · exact render_game_state_appendOnly pick roll1 tnow s
    · split
      · exact preCheck_appendOnly pick roll1 bgm tnow s
      · exact appendOnly_trans (preCheck_appendOnly pick roll1 bgm tnow s)
          (render_game_state_appendOnly pick roll2 tnow _)
  | start => exact appendOnly_refl _
  | settings => exact appendOnly_refl _
  | gameover => exact appendOnly_refl _
  | clear => exact appendOnly_refl _

theorem handle_event_appendOnly (pick : ℕ → Option Gimmick) (tnow : ℚ) (s : GState)
    (e : Event) :
    appendOnly s.triggered_gimmicks (handle_event pick tnow s e).triggered_gimmicks := by
  cases e with
  | hit =>
    show appendOnly s.triggered_gimmicks
      ((if s.scene = Scene.game then hit_check pick tnow s else s)).triggered_gimmicks
    split
    · exact hit_check_appendOnly pick tnow s
    · exact appendOnly_refl _
  | startBtn =>
    show appendOnly s.triggered_gimmicks
      ((if s.scene = Scene.start then start_session tnow s else s)).triggered_gimmicks
    split
    · exact appendOnly_refl _
    · exact appendOnly_refl _
  | restartBtn =>
    show appendOnly s.triggered_gimmicks
      ((if s.scene = Scene.gameover ∨ s.scene = Scene.clear then
          restart_session tnow s else s)).triggered_gimmicks
    split
    · exact appendOnly_refl _
    · exact appendOnly_refl _
  | titleBtn =>
    show appendOnly s.triggered_gimmicks
      ((if s.scene = Scene.gameover ∨ s.scene = Scene.clear then
          to_title s else s)).triggered_gimmicks
    split
    · exact appendOnly_refl _
    · exact appendOnly_refl _

theorem foldl_events_appendOnly (pick : ℕ → Option Gimmick) (tnow : ℚ) :
    ∀ (events : List Event) (s : GState),
      appendOnly s.triggered_gimmicks
        ((events.foldl (handle_event pick tnow) s)).triggered_gimmicks := by
  intro events
  induction events with
  | nil => intro s; exact appendOnly_refl _
  | cons e rest ih =>
    intro s
    exact appendOnly_trans (handle_event_appendOnly pick tnow s e) (ih _)

/-- Claim C9 (amended): the GimmickLog (`triggered_gimmicks`) is
append-only — `record_gimmick` only ever appends an unseen kind — and it is
never cleared: judgement, scheduling, expiry, and every whole frame only
extend it, and the Start, Restart and Title handlers carry it over
unchanged.  In particular it persists across session restarts AND across
returns to the title screen; nothing in the program ever resets it. -/
theorem c9_gimmick_log :
    (∀ (s : GState) (g : Gimmick),
      appendOnly s.triggered_gimmicks (record_gimmick s g).triggered_gimmicks) ∧
    (∀ (tnow : ℚ) (s : GState),
      (start_session tnow s).triggered_gimmicks = s.triggered_gimmicks ∧
      (restart_session tnow s).triggered_gimmicks = s.triggered_gimmicks ∧
      (to_title s).triggered_gimmicks = s.triggered_gimmicks) ∧
    (∀ (pick : ℕ → Option Gimmick) (roll1 roll2 : Bool) (bgm : Option ℚ)
      (events : List Event) (tnow dt : ℚ) (s : GState),
      appendOnly s.triggered_gimmicks
        (frame pick roll1 roll2 bgm events tnow dt s).triggered_gimmicks) := by
  refine ⟨record_appendOnly, fun tnow s => ⟨rfl, rfl, rfl⟩, ?_⟩
  intro pick roll1 roll2 bgm events tnow dt s
  unfold frame
  refine appendOnly_trans (foldl_events_appendOnly pick tnow events s) ?_
  refine appendOnly_trans (appendOnly_of_eq (rfl :
    (tickTimers dt (events.foldl (handle_event pick tnow) s)).triggered_gimmicks =
      (events.foldl (handle_event pick tnow) s).triggered_gimmicks)) ?_
  exact sceneStep_appendOnly pick roll1 roll2 bgm tnow _

theorem sceneStep_non_game (pick : ℕ → Option Gimmick) (roll1 roll2 : Bool)
    (bgm : Option ℚ) (tnow : ℚ) (s : GState) (h : ¬ s.scene = Scene.game) :
    sceneStep pick roll1 roll2 bgm tnow s = s := by
  unfold sceneStep
  cases hsc : s.scene with
  | game => exact absurd hsc h
  | start => rfl
  | settings => rfl
  | gameover => rfl
  | clear => rfl

theorem sceneStep_game_limit (pick : ℕ → Option Gimmick) (roll1 roll2 : Bool)
    (bgm : Option ℚ) (tnow : ℚ) (s : GState)
    (hsc : s.scene = Scene.game) (hp : prepActive tnow s = false)
    (hl : MISS_LIMIT_MAP (preCheck pick roll1 bgm tnow s).difficulty ≤
      (preCheck pick roll1 bgm tnow s).misses) :
    sceneStep pick roll1 roll2 bgm tnow s =
      { preCheck pick roll1 bgm tnow s with
        hannya_hidden_behind := true
        scene := Scene.gameover } := by
  unfold sceneStep
  rw [hsc]
  dsimp only
  rw [hp]
  rw [if_neg (by simp)]
  rw [if_pos hl]

theorem foldl_hit_inert (pick : ℕ → Option Gimmick) (tnow : ℚ) :
    ∀ (events : List Event) (s : GState), s.scene = Scene.gameover →
      (∀ e ∈ events, e = Event.hit) →
      events.foldl (handle_event pick tnow) s = s := by
  intro events
  induction events with
  | nil => intro s _ _; rfl
  | cons e rest ih =>
    intro s hsc hall
    have he : e = Event.hit := hall e (by simp)
    subst he
    have h1 : handle_event pick tnow s Event.hit = s := by
      show (if s.scene = Scene.game then hit_check pick tnow s else s) = s
      rw [hsc]
      simp
    show rest.foldl (handle_event pick tnow) (handle_event pick tnow s Event.hit) = s
    rw [h1]
    exact ih s hsc (fun e he => hall e (by simp [he]))

/-- Claim C7 (amended): when, at the per-frame miss-limit checkpoint (after
event handling, scheduling, note expiry and the dummy/BGM steps of the same
frame), the miss counter has reached the difficulty's limit, the frame
transitions to GAMEOVER right there — the post-check `render_game` pass is
skipped, so no further spawning, expiry or miss accumulation happens in that
frame after the check — and once in GAMEOVER, frames whose input events are
hit inputs change neither the miss counter, the combo, the notes, nor the
scene.  (Within the frame that produced the limit-reaching miss, events and
updates ordered before the checkpoint still run — see the counterexample.) -/
theorem c7_miss_limit_gameover :
    (∀ (pick : ℕ → Option Gimmick) (roll1 roll2 : Bool) (bgm : Option ℚ)
      (tnow : ℚ) (s : GState), s.scene = Scene.game → prepActive tnow s = false →
      MISS_LIMIT_MAP (preCheck pick roll1 bgm tnow s).difficulty ≤
        (preCheck pick roll1 bgm tnow s).misses →
      (sceneStep pick roll1 roll2 bgm tnow s).scene = Scene.gameover ∧
      (sceneStep pick roll1 roll2 bgm tnow s).misses =
        (preCheck pick roll1 bgm tnow s).misses ∧
      (sceneStep pick roll1 roll2 bgm tnow s).notes =
        (preCheck pick roll1 bgm tnow s).notes) ∧
    (∀ (pick : ℕ → Option Gimmick) (roll1 roll2 : Bool) (bgm : Option ℚ)
      (events : List Event) (tnow dt : ℚ) (s : GState), s.scene = Scene.gameover →
      (∀ e ∈ events, e = Event.hit) →
      (frame pick roll1 roll2 bgm events tnow dt s).misses = s.misses ∧
      (frame pick roll1 roll2 bgm events tnow dt s).combo = s.combo ∧
      (frame pick roll1 roll2 bgm events tnow dt s).notes = s.notes ∧
      (frame pick roll1 roll2 bgm events tnow dt s).scene = Scene.gameover) := by
  constructor
  · intro pick roll1 roll2 bgm tnow s hsc hp hl
    rw [sceneStep_game_limit pick roll1 roll2 bgm tnow s hsc hp hl]
    exact ⟨rfl, rfl, rfl⟩
  · intro pick roll1 roll2 bgm events tnow dt s hsc hall
    unfold frame
    rw [foldl_hit_inert pick tnow events s hsc hall]
    rw [sceneStep_non_game pick roll1 roll2 bgm tnow (tickTimers dt s)
      (by show ¬ s.scene = Scene.game; rw [hsc]; simp)]
    exact ⟨rfl, rfl, rfl, hsc⟩

/-- Mid-play state (prep over, no pending notes, no BGM) with the miss
counter already at the NORMAL limit 6. -/
def c7aState : GState := { baseState with scene := Scene.game, misses := 6 }

/-- Witness for C7 (amended): the checkpoint clause applied to `c7aState`
(miss counter 6 = limit): the frame transitions to GAMEOVER; and the
inertness clause applied to a gameover state with one hit event: the miss
counter does not move. -/
theorem c7_miss_limit_gameover_witness :
    (sceneStep pickNone false false none 1 c7aState).scene = Scene.gameover ∧
    (frame pickNone false false none [Event.hit] 1 (1/60) c9State).misses = c9State.misses :=
  ⟨(c7_miss_limit_gameover.1 pickNone false false none 1 c7aState rfl rfl
      (by simp [preCheck, prepActive, dummy_spawn_step, bgm_clear_step,
        schedule_notes_up_to, updateNotesStep, updateNotesGo, c7aState, baseState,
        MISS_LIMIT_MAP])).1,
   (c7_miss_limit_gameover.2 pickNone false false none [Event.hit] 1 (1/60) c9State rfl
      (by intro e he; simpa using he)).1⟩

/-- Mid-play state (prep over, no pending notes, no BGM) with the miss
counter at 5, one short of the NORMAL limit 6. -/
def c7cState : GState := { baseState with scene := Scene.game, misses := 5 }

/-- Claim C7 counterexample: with the miss counter at 5, a frame carrying
two hit-input events (both misses, since no note is live) accumulates the
limit-reaching 6th miss on the first event, yet the second event is still
judged and raises the counter to 7 before the frame transitions to
GAMEOVER — so judgement and miss accumulation do occur in the session after
the limit-reaching miss, refuting "on that exact event and not later". -/
theorem c7_counterexample :
    c7cState.misses = 5 ∧
    MISS_LIMIT_MAP c7cState.difficulty = 6 ∧
    (frame pickNone false false none [Event.hit, Event.hit] 1 (1/60) c7cState).misses = 7 ∧
    (frame pickNone false false none [Event.hit, Event.hit] 1 (1/60) c7cState).scene =
      Scene.gameover := by
  refine ⟨rfl, rfl, ?_, ?_⟩ <;>
    simp [frame, sceneStep, preCheck, prepActive, dummy_spawn_step, bgm_clear_step,
      schedule_notes_up_to, updateNotesStep, updateNotesGo, hit_check, bestSearch, best_go,
      handle_event, tickTimers, c7cState, baseState, MISS_LIMIT_MAP, HIDE_STEP]

/-- Claim C2 (code bug): the prep countdown blocks neither scheduling nor
hit input.  Evaluating one frame at the failing input — Start pressed at
`t = 10` followed by a hit input in the same frame, with `prep_end_time =
11.6 > 10` so the session is inside its prep countdown — shows that (a) the
hit input runs `hit_check` and mutates the game state (no live note, so the
miss counter becomes 1 and the combo resets), because the SPACE handler
(line 784-786) has no prep guard, and (b) the prep-branch `render_game()`
call (lines 818-821, 504-506) runs `schedule_notes_up_to`, spawning beat 0's
note before `prep_end_time` — contradicting the code's own comments
("don't spawn notes until prep_end_time", lines 504 and 817). -/
theorem c2_prep_not_blocking :
    (frame pickNone false false none [Event.startBtn, Event.hit] 10 (1/60)
        baseState).prep_end_time = some (58/5) ∧
    ((10:ℚ) < 58/5) ∧
    (frame pickNone false false none [Event.startBtn, Event.hit] 10 (1/60)
        baseState).misses = 1 ∧
    (frame pickNone false false none [Event.startBtn, Event.hit] 10 (1/60)
        baseState).combo = 0 ∧
    (frame pickNone false false none [Event.startBtn, Event.hit] 10 (1/60)
        baseState).notes.length = 1 ∧
    (frame pickNone false false none [Event.startBtn, Event.hit] 10 (1/60)
        baseState).scene = Scene.game := by
  refine ⟨?_, by norm_num, ?_, ?_, ?_, ?_⟩ <;>
    norm_num [frame, sceneStep, preCheck, prepActive, dummy_spawn_step, bgm_clear_step,
      schedule_notes_up_to, updateNotesStep, updateNotesGo, hit_check, bestSearch, best_go,
      handle_event, tickTimers, start_session, baseState, MISS_LIMIT_MAP, HIDE_STEP,
      render_game_state, dueCount, scheduleGo, spawn_one, beat_time, Note.init, Note.update,
      NOTE_TRAVEL_SEC, START_PREP_DELAY, SPB, BPM, OK_WINDOW, DIFF_WINDOW, clamp, pickNone]

end Mokugyo
